import Mathlib

/-!
Verification of the keplerian-elements orbital mechanics library.

The scalar type `Num` of the source (an IEEE float) is modelled by the real
numbers `ℝ`.  Partial functions of the source (functions that can panic) are
modelled with `Option`: `none` is a panic.  Every definition below is a direct
translation of the corresponding Rust item; file and line references are given
in the doc comments.
-/

open Real

noncomputable section

/-- 3-D vector (glam `Vec3` / `DVec3`). -/
structure Vec3 where
  x : ℝ
  y : ℝ
  z : ℝ

namespace Vec3

def add (a b : Vec3) : Vec3 := ⟨a.x + b.x, a.y + b.y, a.z + b.z⟩

def sub (a b : Vec3) : Vec3 := ⟨a.x - b.x, a.y - b.y, a.z - b.z⟩

/-- Scalar times vector (`c * v` in glam). -/
def smul (c : ℝ) (v : Vec3) : Vec3 := ⟨c * v.x, c * v.y, c * v.z⟩

/-- Vector divided by a scalar (`v / c` in glam). -/
def sdiv (v : Vec3) (c : ℝ) : Vec3 := ⟨v.x / c, v.y / c, v.z / c⟩

def dot (a b : Vec3) : ℝ := a.x * b.x + a.y * b.y + a.z * b.z

def cross (a b : Vec3) : Vec3 :=
  ⟨a.y * b.z - a.z * b.y, a.z * b.x - a.x * b.z, a.x * b.y - a.y * b.x⟩

noncomputable def length (v : Vec3) : ℝ := Real.sqrt (v.x ^ 2 + v.y ^ 2 + v.z ^ 2)

/-- glam `normalize`: the vector divided by its length. -/
noncomputable def normalize (v : Vec3) : Vec3 := v.sdiv v.length

/-- glam `Vec3::X`. -/
def X : Vec3 := ⟨1, 0, 0⟩

/-- glam `Vec3::Y`. -/
def Y : Vec3 := ⟨0, 1, 0⟩

/-- glam `Vec3::Z`. -/
def Z : Vec3 := ⟨0, 0, 1⟩

end Vec3

/-- Gravitational constant, `src/constants.rs`: `G = 6.67430e-11`. -/
def G : ℝ := 66743 / 10 ^ 15

/-- `Num::EPSILON` for the default `f32` feature: `2^(-23)`. -/
def machEps : ℝ := 1 / 2 ^ 23

/-- `src/constants.rs`: `TWO_PI = 2.0 * PI`. -/
noncomputable def TWO_PI : ℝ := 2 * π

/-- `src/math.rs` line 1: `MAX_STEPS = 100_000`. -/
def MAX_STEPS : ℕ := 100000

/-- The loop of `newton_approx` (`src/math.rs` lines 21-31), with the remaining
iteration budget as fuel.  Running out of fuel is the `panic!` on line 33,
modelled as `none`. -/
def newtonGo (f f_prime : ℝ → ℝ) (epsilon : ℝ) : ℕ → ℝ → Option ℝ
  | 0, _ => none
  | n + 1, x =>
    let xNext := x - f x / f_prime x
    if |xNext - x| < epsilon then some xNext else newtonGo f f_prime epsilon n xNext

/-- `src/math.rs` lines 13-37: Newton-Raphson root approximation.
`none` models the `panic!` after `MAX_STEPS` iterations. -/
def newton_approx (f f_prime : ℝ → ℝ) (x0 epsilon : ℝ) : Option ℝ :=
  newtonGo f f_prime epsilon MAX_STEPS x0

/-- The pure Newton iteration sequence `x_{n+1} = x_n - f(x_n)/f'(x_n)`
starting from `x0`; used to specify `newton_approx`. -/
def newtonSeq (f f_prime : ℝ → ℝ) (x0 : ℝ) : ℕ → ℝ
  | 0 => x0
  | n + 1 =>
    let x := newtonSeq f f_prime x0 n
    x - f x / f_prime x

/-- `src/astro.rs` lines 8-11: standard gravitational parameter `μ = G * mass`. -/
def standard_gravitational_parameter (mass : ℝ) : ℝ := G * mass

/-- `src/astro.rs` lines 18-20: sphere-of-influence radius
`r * (m1 / m2).powf(2.0 / 5.0)`. -/
noncomputable def soi (r m1 m2 : ℝ) : ℝ := r * (m1 / m2) ^ ((2 : ℝ) / 5)

section NewtonLemmas

variable (f f_prime : ℝ → ℝ) (x0 epsilon : ℝ)

lemma newtonSeq_zero : newtonSeq f f_prime x0 0 = x0 := rfl

lemma newtonSeq_succ (j : ℕ) :
    newtonSeq f f_prime x0 (j + 1) =
      newtonSeq f f_prime x0 j - f (newtonSeq f f_prime x0 j) / f_prime (newtonSeq f f_prime x0 j) := by
  rw [newtonSeq]

lemma newtonGo_zero (x : ℝ) : newtonGo f f_prime epsilon 0 x = none := by
  rw [newtonGo]

lemma newtonGo_succ (k : ℕ) (x : ℝ) :
    newtonGo f f_prime epsilon (k + 1) x =
      if |(x - f x / f_prime x) - x| < epsilon then some (x - f x / f_prime x)
      else newtonGo f f_prime epsilon k (x - f x / f_prime x) := by
  rw [newtonGo]

lemma newtonGo_start_seq (k j : ℕ) :
    ∀ y, newtonGo f f_prime epsilon k (newtonSeq f f_prime x0 j) = some y ↔
      ∃ n, n < k ∧
        (∀ m, m < n →
          ¬ |newtonSeq f f_prime x0 (j + m + 1) - newtonSeq f f_prime x0 (j + m)| < epsilon) ∧
        |newtonSeq f f_prime x0 (j + n + 1) - newtonSeq f f_prime x0 (j + n)| < epsilon ∧
        y = newtonSeq f f_prime x0 (j + n + 1) := by
  induction k generalizing j with
  | zero => intro y; rw [newtonGo_zero]; simp
  | succ k ih =>
    intro y
    have hstep : newtonGo f f_prime epsilon (k + 1) (newtonSeq f f_prime x0 j) =
        if |newtonSeq f f_prime x0 (j + 1) - newtonSeq f f_prime x0 j| < epsilon then
          some (newtonSeq f f_prime x0 (j + 1))
        else newtonGo f f_prime epsilon k (newtonSeq f f_prime x0 (j + 1)) := by
      rw [newtonGo_succ, ← newtonSeq_succ]
    rw [hstep]
    by_cases hc : |newtonSeq f f_prime x0 (j + 1) - newtonSeq f f_prime x0 j| < epsilon
    · rw [if_pos hc]
      constructor
      · intro hy
        refine ⟨0, Nat.succ_pos k, by omega, by simpa using hc, ?_⟩
        simpa using (Option.some_inj.mp hy).symm
      · rintro ⟨n, -, hmin, -, hy⟩
        rcases Nat.eq_zero_or_pos n with rfl | hn
        · simp only [hy]
        · exact absurd (by simpa using hc) (by simpa using hmin 0 hn)
    · rw [if_neg hc]
      rw [ih (j + 1) y]
      constructor
      · rintro ⟨n, hnk, hmin, hconv, hy⟩
        refine ⟨n + 1, by omega, ?_, ?_, ?_⟩
        · intro m hm
          rcases Nat.eq_zero_or_pos m with rfl | hmpos
          · simpa using hc
          · have := hmin (m - 1) (by omega)
            have harg : j + 1 + (m - 1) = j + m := by omega
            rwa [harg] at this
        · have harg : j + 1 + n = j + (n + 1) := by omega
          rwa [harg] at hconv
        · have harg : j + 1 + n = j + (n + 1) := by omega
          rwa [harg] at hy
      · rintro ⟨n, hnk, hmin, hconv, hy⟩
        rcases Nat.eq_zero_or_pos n with rfl | hnpos
        · exact absurd (by simpa using hconv) hc
        · refine ⟨n - 1, by omega, ?_, ?_, ?_⟩
          · intro m hm
            have := hmin (m + 1) (by omega)
            have harg : j + (m + 1) = j + 1 + m := by omega
            rwa [harg] at this
          · have harg : j + n = j + 1 + (n - 1) := by omega
            rwa [harg] at hconv
          · have harg : j + n = j + 1 + (n - 1) := by omega
            rwa [harg] at hy

lemma newtonGo_none_start_seq (k j : ℕ) :
    newtonGo f f_prime epsilon k (newtonSeq f f_prime x0 j) = none ↔
      ∀ n, n < k →
        ¬ |newtonSeq f f_prime x0 (j + n + 1) - newtonSeq f f_prime x0 (j + n)| < epsilon := by
  induction k generalizing j with
  | zero => rw [newtonGo_zero]; simp
  | succ k ih =>
    have hstep : newtonGo f f_prime epsilon (k + 1) (newtonSeq f f_prime x0 j) =
        if |newtonSeq f f_prime x0 (j + 1) - newtonSeq f f_prime x0 j| < epsilon then
          some (newtonSeq f f_prime x0 (j + 1))
        else newtonGo f f_prime epsilon k (newtonSeq f f_prime x0 (j + 1)) := by
      rw [newtonGo_succ, ← newtonSeq_succ]
    rw [hstep]
    by_cases hc : |newtonSeq f f_prime x0 (j + 1) - newtonSeq f f_prime x0 j| < epsilon
    · rw [if_pos hc]
      constructor
      · intro h; exact absurd h (Option.some_ne_none _)
      · intro h; exact absurd (by simpa using hc) (h 0 (Nat.succ_pos k))
    · rw [if_neg hc, ih (j + 1)]
      constructor
      · intro h n hn
        rcases Nat.eq_zero_or_pos n with rfl | hnpos
        · simpa using hc
        · have := h (n - 1) (by omega)
          have harg : j + 1 + (n - 1) = j + n := by omega
          rwa [harg] at this
      · intro h n hn
        have := h (n + 1) (by omega)
        have harg : j + (n + 1) = j + 1 + n := by omega
        rwa [harg] at this

lemma newtonGo_none_of_nonpos (h : epsilon ≤ 0) : ∀ (k : ℕ) (x : ℝ),
    newtonGo f f_prime epsilon k x = none := by
  intro k
  induction k with
  | zero => intro x; exact newtonGo_zero f f_prime epsilon x
  | succ k ih =>
    intro x
    rw [newtonGo_succ]
    rw [if_neg (not_lt.mpr (le_trans h (abs_nonneg _)))]
    exact ih _

end NewtonLemmas

/-- C5: `newton_approx` iterates `x_{n+1} = x_n - f(x_n)/f'(x_n)` from `x0`,
returns the first iterate `x_{n+1}` whose distance to `x_n` is below `epsilon`,
and fails fatally (`panic!`, modelled by `none`) after `MAX_STEPS = 100000`
iterations without convergence, never returning a partially-converged value. -/
theorem newton_approx_spec (f f_prime : ℝ → ℝ) (x0 epsilon : ℝ) :
    (∀ y, newton_approx f f_prime x0 epsilon = some y ↔
      ∃ n, n < MAX_STEPS ∧
        (∀ m, m < n →
          ¬ |newtonSeq f f_prime x0 (m + 1) - newtonSeq f f_prime x0 m| < epsilon) ∧
        |newtonSeq f f_prime x0 (n + 1) - newtonSeq f f_prime x0 n| < epsilon ∧
        y = newtonSeq f f_prime x0 (n + 1)) ∧
    (newton_approx f f_prime x0 epsilon = none ↔
      ∀ n, n < MAX_STEPS →
        ¬ |newtonSeq f f_prime x0 (n + 1) - newtonSeq f f_prime x0 n| < epsilon) := by
  constructor
  · intro y
    have h := newtonGo_start_seq f f_prime x0 epsilon MAX_STEPS 0 y
    rw [newtonSeq_zero] at h
    simpa only [newton_approx, Nat.zero_add] using h
  · have h := newtonGo_none_start_seq f f_prime x0 epsilon MAX_STEPS 0
    rw [newtonSeq_zero] at h
    simpa only [newton_approx, Nat.zero_add] using h

/-- C10: with a non-positive tolerance the convergence test `|Δx| < ε` can never
succeed, so `newton_approx` performs all `MAX_STEPS` iterations and panics
(`none`); it never returns normally. -/
theorem newton_approx_nonpos_tolerance (f f_prime : ℝ → ℝ) (x0 epsilon : ℝ)
    (h : epsilon ≤ 0) : newton_approx f f_prime x0 epsilon = none :=
  newtonGo_none_of_nonpos f f_prime epsilon h MAX_STEPS x0

/-- Witness for C10 at `f = id`, `f' = 1`, `x0 = 0`, `ε = 0`. -/
theorem newton_approx_nonpos_tolerance_witness :
    (0 : ℝ) ≤ 0 ∧ newton_approx (fun x => x) (fun _ => 1) 0 0 = none :=
  ⟨le_refl 0, newton_approx_nonpos_tolerance (fun x => x) (fun _ => 1) 0 0 (le_refl 0)⟩

/-- C9: the sphere-of-influence radius is `r * (m1/m2)^(2/5)`; for `r > 0` and
positive masses it is strictly increasing in the smaller mass `m1` and strictly
decreasing in the larger mass `m2`. -/
theorem soi_formula_monotone (r m1 m1' m2 m2' : ℝ) (hr : 0 < r) (hm1 : 0 < m1)
    (hm2 : 0 < m2) :
    soi r m1 m2 = r * (m1 / m2) ^ ((2 : ℝ) / 5) ∧
    (m1 < m1' → soi r m1 m2 < soi r m1' m2) ∧
    (m2 < m2' → soi r m1 m2' < soi r m1 m2) := by
  refine ⟨rfl, ?_, ?_⟩
  · intro h
    have hdiv : m1 / m2 < m1' / m2 := div_lt_div_of_pos_right h hm2
    have hpow : (m1 / m2) ^ ((2 : ℝ) / 5) < (m1' / m2) ^ ((2 : ℝ) / 5) :=
      Real.rpow_lt_rpow (div_nonneg hm1.le hm2.le) hdiv (by norm_num)
    exact mul_lt_mul_of_pos_left hpow hr
  · intro h
    have hdiv : m1 / m2' < m1 / m2 := div_lt_div_of_pos_left hm1 hm2 h
    have hpow : (m1 / m2') ^ ((2 : ℝ) / 5) < (m1 / m2) ^ ((2 : ℝ) / 5) :=
      Real.rpow_lt_rpow (div_nonneg hm1.le (le_trans hm2.le h.le)) hdiv (by norm_num)
    exact mul_lt_mul_of_pos_left hpow hr

/-- Witness for C9 at `r = 1`, masses `1 < 2`. -/
theorem soi_formula_monotone_witness :
    soi 1 1 1 = 1 * ((1 : ℝ) / 1) ^ ((2 : ℝ) / 5) ∧ soi 1 1 1 < soi 1 2 1 ∧
      soi 1 1 2 < soi 1 1 1 :=
  ⟨(soi_formula_monotone 1 1 2 1 2 one_pos one_pos one_pos).1,
   (soi_formula_monotone 1 1 2 1 2 one_pos one_pos one_pos).2.1 one_lt_two,
   (soi_formula_monotone 1 1 2 1 2 one_pos one_pos one_pos).2.2 one_lt_two⟩

/-- `src/elements.rs` lines 4-13 (also `src/lib.rs` lines 25-34). -/
structure KeplerianElements where
  eccentricity : ℝ
  semi_major_axis : ℝ
  inclination : ℝ
  right_ascension_of_the_ascending_node : ℝ
  argument_of_periapsis : ℝ
  mean_anomaly_at_epoch : ℝ
  epoch : ℝ

/-- `src/state_vectors.rs` lines 4-9. -/
structure StateVectors where
  position : Vec3
  velocity : Vec3

/-- glam `Mat3::from_rotation_z θ` applied to a vector. -/
def rotZ (θ : ℝ) (v : Vec3) : Vec3 :=
  ⟨Real.cos θ * v.x - Real.sin θ * v.y, Real.sin θ * v.x + Real.cos θ * v.y, v.z⟩

/-- glam `Mat3::from_rotation_x θ` applied to a vector. -/
def rotX (θ : ℝ) (v : Vec3) : Vec3 :=
  ⟨v.x, Real.cos θ * v.y - Real.sin θ * v.z, Real.sin θ * v.y + Real.cos θ * v.z⟩

namespace KeplerianElements

/-- `src/elements.rs` lines 238-241: `is_hyperbolic` is `e >= 1.0`
(the parabolic boundary is folded into the hyperbolic branch). -/
def is_hyperbolic (el : KeplerianElements) : Prop := 1 ≤ el.eccentricity

/-- `src/elements.rs` lines 202-214. -/
def specific_angular_momentum (el : KeplerianElements) (mass : ℝ) : ℝ :=
  let μ := standard_gravitational_parameter mass
  if 1 ≤ el.eccentricity then
    Real.sqrt (μ * el.semi_major_axis * (el.eccentricity ^ 2 - 1))
  else
    Real.sqrt (μ * el.semi_major_axis * (1 - el.eccentricity ^ 2))

/-- `src/elements.rs` lines 79-83: elliptic mean motion. -/
def mean_motion (h e mass : ℝ) : ℝ :=
  let μ := standard_gravitational_parameter mass
  μ ^ 2 / h ^ 3 * Real.sqrt ((1 - e ^ 2) ^ 3)

/-- `src/elements.rs` lines 98-102: hyperbolic mean motion. -/
def hyperbolic_mean_motion (h e mass : ℝ) : ℝ :=
  let μ := standard_gravitational_parameter mass
  μ ^ 2 / h ^ 3 * Real.sqrt ((e ^ 2 - 1) ^ 3)

/-- `src/elements.rs` lines 68-75: `M(t) = M0 + n * (t - t0)`. -/
def mean_anomaly (el : KeplerianElements) (mass epoch : ℝ) : ℝ :=
  el.mean_anomaly_at_epoch +
    mean_motion (el.specific_angular_momentum mass) el.eccentricity mass * (epoch - el.epoch)

/-- `src/elements.rs` lines 87-94. -/
def hyperbolic_mean_anomaly (el : KeplerianElements) (mass epoch : ℝ) : ℝ :=
  el.mean_anomaly_at_epoch +
    hyperbolic_mean_motion (el.specific_angular_momentum mass) el.eccentricity mass *
      (epoch - el.epoch)

/-- `src/elements.rs` lines 111-123: solve `E - e sin E = M` by Newton iteration
started at `M`. -/
def estimate_eccentric_anomaly (el : KeplerianElements) (mass epoch tolerance : ℝ) :
    Option ℝ :=
  let M := el.mean_anomaly mass epoch
  let e := el.eccentricity
  newton_approx (fun E => E - e * Real.sin E - M) (fun E => 1 - e * Real.cos E) M tolerance

/-- `src/elements.rs` lines 132-144: solve `e sinh F - F = M` by Newton iteration
started at `M`. -/
def estimate_hyperbolic_anomaly (el : KeplerianElements) (mass epoch tolerance : ℝ) :
    Option ℝ :=
  let M := el.hyperbolic_mean_anomaly mass epoch
  let e := el.eccentricity
  newton_approx (fun F => e * Real.sinh F - F - M) (fun F => e * Real.cosh F - 1) M tolerance

/-- `src/elements.rs` lines 217-232: true anomaly at an epoch
(`none` when the inner Newton solve panics). -/
def true_anomaly_at_epoch (el : KeplerianElements) (mass epoch tolerance : ℝ) : Option ℝ :=
  let e := el.eccentricity
  if 1 ≤ e then
    (el.estimate_hyperbolic_anomaly mass epoch tolerance).map fun F =>
      2 * Real.arctan (Real.tanh (F / 2) / Real.sqrt ((e - 1) / (e + 1)))
  else
    (el.estimate_eccentric_anomaly mass epoch tolerance).map fun E =>
      2 * Real.arctan (Real.tan (E / 2) / Real.sqrt ((1 - e) / (1 + e)))

/-- `src/elements.rs` lines 188-200: the 3-1-3 rotation
`Rz(Ω) * Rx(i) * Rz(ω)` applied to a perifocal vector. -/
def perifocal_to_equatorial (el : KeplerianElements) (perifocal : Vec3) : Vec3 :=
  rotZ el.right_ascension_of_the_ascending_node
    (rotX el.inclination (rotZ el.argument_of_periapsis perifocal))

/-- `src/elements.rs` lines 159-173. -/
def position_at_true_anomaly (el : KeplerianElements) (mass v : ℝ) : Vec3 :=
  let e := el.eccentricity
  let h := el.specific_angular_momentum mass
  let μ := standard_gravitational_parameter mass
  let r := h ^ 2 / μ / (1 + e * Real.cos v)
  el.perifocal_to_equatorial ⟨r * Real.cos v, r * Real.sin v, 0⟩

/-- `src/elements.rs` lines 176-185. -/
def velocity_at_true_anomaly (el : KeplerianElements) (mass v : ℝ) : Vec3 :=
  let e := el.eccentricity
  let h := el.specific_angular_momentum mass
  let μ := standard_gravitational_parameter mass
  el.perifocal_to_equatorial ⟨-(μ / h) * Real.sin v, μ / h * (e + Real.cos v), 0⟩

/-- `src/elements.rs` lines 146-156 (the debug `println!` has no effect on the
returned value and is not modelled). -/
def state_vectors_at_epoch (el : KeplerianElements) (mass epoch tolerance : ℝ) :
    Option StateVectors :=
  (el.true_anomaly_at_epoch mass epoch tolerance).map fun v =>
    ⟨el.position_at_true_anomaly mass v, el.velocity_at_true_anomaly mass v⟩

/-- `src/elements.rs` lines 33-35: evaluation at `ν = -ω`. -/
def ascending_node (el : KeplerianElements) (mass : ℝ) : Vec3 :=
  el.position_at_true_anomaly mass (-el.argument_of_periapsis)

/-- `src/elements.rs` lines 37-39: evaluation at `ν = π - ω`. -/
def descending_node (el : KeplerianElements) (mass : ℝ) : Vec3 :=
  el.position_at_true_anomaly mass (π - el.argument_of_periapsis)

/-- `src/elements.rs` lines 41-43: evaluation at `ν = 0`. -/
def periapsis (el : KeplerianElements) (mass : ℝ) : Vec3 :=
  el.position_at_true_anomaly mass 0

/-- `src/elements.rs` lines 45-47: evaluation at `ν = π`. -/
def apoapsis (el : KeplerianElements) (mass : ℝ) : Vec3 :=
  el.position_at_true_anomaly mass π

/-- `src/elements.rs` lines 49-51. -/
def normal (el : KeplerianElements) : Vec3 :=
  el.perifocal_to_equatorial Vec3.Z

end KeplerianElements

/-- `src/state_vectors.rs` lines 232-239. -/
def calculate_hyperbolic_mean_anomaly (e v : ℝ) : ℝ :=
  let term1 := e * Real.sqrt (e ^ 2 - 1) * Real.sin v / (1 + e * Real.cos v)
  let term2Num := Real.sqrt (e + 1) + Real.sqrt (e - 1) * Real.tan (v / 2)
  let term2Den := Real.sqrt (e + 1) - Real.sqrt (e - 1) * Real.tan (v / 2)
  term1 - Real.log (term2Num / term2Den)

/-- `src/state_vectors.rs` lines 242-247. -/
def calculate_elliptical_mean_anomaly (e v : ℝ) : ℝ :=
  let term1 := 2 * Real.arctan (Real.sqrt ((1 - e) / (1 + e)) * Real.tan (v / 2))
  let term2 := e * (Real.sqrt (1 - e ^ 2) * Real.sin v / (1 + e * Real.cos v))
  term1 - term2

namespace StateVectors

/-! The inverse conversion `StateVectors::to_elements`
(`src/state_vectors.rs` lines 21-124).  Each local variable of the Rust
function is translated as one named definition. -/

/-- Line 30: angular momentum vector `hv = rv × vv`. -/
def hVec (sv : StateVectors) : Vec3 := sv.position.cross sv.velocity

/-- Lines 34-41: node vector `nv = Ẑ × hv`, replaced by the X axis when its
length is below `Num::EPSILON`. -/
def nVec (sv : StateVectors) : Vec3 :=
  let nv0 := Vec3.Z.cross sv.hVec
  if nv0.length < machEps then Vec3.X else nv0

/-- Line 43: the normalized node vector (shadowing `nv` in the source). -/
def nHat (sv : StateVectors) : Vec3 := sv.nVec.normalize

/-- Line 48: eccentricity vector
`ev = (1/μ) * ((v² - μ/r) * rv - (rv·vv) * vv)`. -/
def eVec (sv : StateVectors) (mass : ℝ) : Vec3 :=
  let μ := standard_gravitational_parameter mass
  Vec3.smul (1 / μ)
    (Vec3.sub (Vec3.smul (sv.velocity.length ^ 2 - μ / sv.position.length) sv.position)
      (Vec3.smul (sv.position.dot sv.velocity) sv.velocity))

/-- Line 49: `e = |ev|`. -/
def ecc (sv : StateVectors) (mass : ℝ) : ℝ := (sv.eVec mass).length

/-- Line 57: `i = arccos(hv.z / h)`. -/
def incl (sv : StateVectors) : ℝ := Real.arccos (sv.hVec.z / sv.hVec.length)

/-- Lines 60-68: right ascension of the ascending node with its quadrant
correction by the sign of `nv.y`, forced to `0` when `|i| < ε`. -/
def raan (sv : StateVectors) : ℝ :=
  let Ω0 := Real.arccos sv.nHat.x
  let Ω1 := if sv.nHat.y < 0 then TWO_PI - Ω0 else Ω0
  if |sv.incl| < machEps then 0 else Ω1

/-- Lines 71-92: argument of periapsis: quadrant correction by the sign of
`ev.y` when `|i| < ε` and of `ev.z` otherwise, forced to `0` when `e == 0`. -/
def argp (sv : StateVectors) (mass : ℝ) : ℝ :=
  let ev := sv.eVec mass
  let e := sv.ecc mass
  let ω0 := Real.arccos ((ev.sdiv e).dot sv.nHat)
  let ω1 :=
    if |sv.incl| < machEps then if ev.y < 0 then TWO_PI - ω0 else ω0
    else if ev.z < 0 then TWO_PI - ω0 else ω0
  if e = 0 then 0 else ω1

/-- Lines 95-99: semi-major axis (the hyperbolic branch is taken when
`e >= 1.0`, line 51). -/
def sma (sv : StateVectors) (mass : ℝ) : ℝ :=
  let μ := standard_gravitational_parameter mass
  let h := sv.hVec.length
  if 1 ≤ sv.ecc mass then h ^ 2 / μ / (sv.ecc mass ^ 2 - 1)
  else h ^ 2 / μ / (1 - sv.ecc mass ^ 2)

/-- Lines 102-106: true anomaly with its quadrant correction by the sign of
`(rv/r)·(vv/v)`. -/
def trueAnom (sv : StateVectors) (mass : ℝ) : ℝ :=
  let ν0 := Real.arccos ((sv.position.sdiv sv.position.length).dot
    ((sv.eVec mass).sdiv (sv.ecc mass)))
  if (sv.position.sdiv sv.position.length).dot (sv.velocity.sdiv sv.velocity.length) < 0 then
    TWO_PI - ν0
  else ν0

/-- Lines 109-113: mean anomaly from the true anomaly, separately for the
elliptic and hyperbolic cases. -/
def meanAnom (sv : StateVectors) (mass : ℝ) : ℝ :=
  if 1 ≤ sv.ecc mass then calculate_hyperbolic_mean_anomaly (sv.ecc mass) (sv.trueAnom mass)
  else calculate_elliptical_mean_anomaly (sv.ecc mass) (sv.trueAnom mass)

/-- `src/state_vectors.rs` lines 21-124: inverse conversion from state vectors
to Keplerian elements (lines 115-123 assemble the result). -/
def to_elements (sv : StateVectors) (mass time : ℝ) : KeplerianElements :=
  ⟨sv.ecc mass, sv.sma mass, sv.incl, sv.raan, sv.argp mass, sv.meanAnom mass, time⟩

end StateVectors

namespace LibSnapshot

/-- `src/lib.rs` lines 308-323: the historical snapshot applies the mirrored
rotation `Rz(-Ω) * Rx(-i) * Rz(-ω)`. -/
def perifocal_to_equatorial (el : KeplerianElements) (perifocal : Vec3) : Vec3 :=
  rotZ (-el.right_ascension_of_the_ascending_node)
    (rotX (-el.inclination) (rotZ (-el.argument_of_periapsis) perifocal))

/-- `src/lib.rs` lines 325-337 (same formula as `src/elements.rs`). -/
def specific_angular_momentum (el : KeplerianElements) (mass : ℝ) : ℝ :=
  let μ := standard_gravitational_parameter mass
  if 1 ≤ el.eccentricity then
    Real.sqrt (μ * el.semi_major_axis * (el.eccentricity ^ 2 - 1))
  else
    Real.sqrt (μ * el.semi_major_axis * (1 - el.eccentricity ^ 2))

/-- `src/lib.rs` lines 281-295. -/
def position_at_true_anomaly (el : KeplerianElements) (mass v : ℝ) : Vec3 :=
  let e := el.eccentricity
  let h := specific_angular_momentum el mass
  let μ := standard_gravitational_parameter mass
  let r := h ^ 2 / μ / (1 + e * Real.cos v)
  perifocal_to_equatorial el ⟨r * Real.cos v, r * Real.sin v, 0⟩

/-- `src/lib.rs` lines 158-160: evaluation at `ν = +ω` (not `-ω`). -/
def ascending_node (el : KeplerianElements) (mass : ℝ) : Vec3 :=
  position_at_true_anomaly el mass el.argument_of_periapsis

/-- `src/lib.rs` lines 162-164: evaluation at `ν = π + ω` (not `π - ω`). -/
def descending_node (el : KeplerianElements) (mass : ℝ) : Vec3 :=
  position_at_true_anomaly el mass (π + el.argument_of_periapsis)

end LibSnapshot

/-- A central mass chosen so that `μ = G * mass = 1` exactly. -/
def massOne : ℝ := 10 ^ 15 / 66743

lemma sgp_massOne : standard_gravitational_parameter massOne = 1 := by
  rw [standard_gravitational_parameter, massOne, G]
  norm_num

/-- C8 (amended, `src/elements.rs`): the convenience wrappers are exactly the
position formula evaluated at `ν = 0`, `π`, `-ω` and `π - ω` under the single
rotation `Rz(Ω) Rx(i) Rz(ω)`; both node points lie in the equatorial plane. -/
theorem wrappers_fixed_true_anomaly (el : KeplerianElements) (mass : ℝ) :
    el.periapsis mass = el.position_at_true_anomaly mass 0 ∧
    el.apoapsis mass = el.position_at_true_anomaly mass π ∧
    el.ascending_node mass = el.position_at_true_anomaly mass (-el.argument_of_periapsis) ∧
    el.descending_node mass = el.position_at_true_anomaly mass (π - el.argument_of_periapsis) ∧
    (el.ascending_node mass).z = 0 ∧
    (el.descending_node mass).z = 0 := by
  refine ⟨rfl, rfl, rfl, rfl, ?_, ?_⟩
  · simp only [KeplerianElements.ascending_node, KeplerianElements.position_at_true_anomaly,
      KeplerianElements.perifocal_to_equatorial, rotZ, rotX, Real.cos_neg, Real.sin_neg]
    ring
  · simp only [KeplerianElements.descending_node, KeplerianElements.position_at_true_anomaly,
      KeplerianElements.perifocal_to_equatorial, rotZ, rotX, Real.cos_pi_sub, Real.sin_pi_sub]
    ring

/-- C8 counterexample input: circular equatorial elements with `ω = π/2`. -/
def libEl : KeplerianElements := ⟨0, 1, 0, 0, π / 2, 0, 0⟩

/-- C8 counterexample: in the historical `src/lib.rs` snapshot,
`ascending_node` evaluates the position at `ν = +ω`, which differs from the
position at `ν = -ω` claimed by the specification. -/
theorem lib_ascending_node_not_neg_argp :
    LibSnapshot.ascending_node libEl massOne ≠
      LibSnapshot.position_at_true_anomaly libEl massOne (-libEl.argument_of_periapsis) := by
  have hx1 : (LibSnapshot.ascending_node libEl massOne).x = 1 := by
    simp only [LibSnapshot.ascending_node, LibSnapshot.position_at_true_anomaly,
      LibSnapshot.specific_angular_momentum, LibSnapshot.perifocal_to_equatorial,
      sgp_massOne, libEl, rotZ, rotX]
    norm_num [Real.sqrt_one, Real.cos_pi_div_two, Real.sin_pi_div_two]
  have hx2 : (LibSnapshot.position_at_true_anomaly libEl massOne
      (-libEl.argument_of_periapsis)).x = -1 := by
    simp only [LibSnapshot.position_at_true_anomaly,
      LibSnapshot.specific_angular_momentum, LibSnapshot.perifocal_to_equatorial,
      sgp_massOne, libEl, rotZ, rotX]
    norm_num [Real.sqrt_one, Real.cos_pi_div_two, Real.sin_pi_div_two]
  intro h
  rw [h, hx2] at hx1
  norm_num at hx1

/-- C7 (amended): in the inverse conversion, a node vector below `ε` is
replaced by the X axis, which forces `Ω = 0`; but `ω` is forced to `0` only
when the computed eccentricity is exactly zero. -/
theorem to_elements_degenerate_defaults (sv : StateVectors) (mass time : ℝ) :
    ((Vec3.Z.cross (sv.position.cross sv.velocity)).length < machEps →
      (sv.to_elements mass time).right_ascension_of_the_ascending_node = 0) ∧
    ((sv.to_elements mass time).eccentricity = 0 →
      (sv.to_elements mass time).argument_of_periapsis = 0) := by
  constructor
  · intro hn
    have hnv : sv.nVec = Vec3.X := by
      simp only [StateVectors.nVec, StateVectors.hVec]
      rw [if_pos hn]
    have hnhat : sv.nHat = ⟨1, 0, 0⟩ := by
      rw [StateVectors.nHat, hnv]
      simp only [Vec3.normalize, Vec3.sdiv, Vec3.length, Vec3.X]
      norm_num [Real.sqrt_one]
    show sv.raan = 0
    rw [StateVectors.raan, hnhat]
    simp only [Real.arccos_one]
    norm_num
  · intro he
    have he' : sv.ecc mass = 0 := he
    show sv.argp mass = 0
    rw [StateVectors.argp]
    simp only [he', if_pos]

/-- Witness for C7 at the planar circular state `((1,0,0), (0,1,0))` with
`μ = 1`: the node vector is degenerate and the eccentricity is exactly zero,
so both defaults fire. -/
theorem to_elements_degenerate_defaults_witness :
    (Vec3.Z.cross (((⟨⟨1, 0, 0⟩, ⟨0, 1, 0⟩⟩ : StateVectors)).position.cross
      (⟨⟨1, 0, 0⟩, ⟨0, 1, 0⟩⟩ : StateVectors).velocity)).length < machEps ∧
    ((⟨⟨1, 0, 0⟩, ⟨0, 1, 0⟩⟩ : StateVectors).to_elements massOne 0).eccentricity = 0 ∧
    ((⟨⟨1, 0, 0⟩, ⟨0, 1, 0⟩⟩ :
      StateVectors).to_elements massOne 0).right_ascension_of_the_ascending_node = 0 ∧
    ((⟨⟨1, 0, 0⟩, ⟨0, 1, 0⟩⟩ : StateVectors).to_elements massOne 0).argument_of_periapsis = 0 := by
  have hn : (Vec3.Z.cross (((⟨⟨1, 0, 0⟩, ⟨0, 1, 0⟩⟩ : StateVectors)).position.cross
      (⟨⟨1, 0, 0⟩, ⟨0, 1, 0⟩⟩ : StateVectors).velocity)).length < machEps := by
    simp only [Vec3.cross, Vec3.Z, Vec3.length]
    norm_num [Real.sqrt_zero, machEps]
  have he : ((⟨⟨1, 0, 0⟩, ⟨0, 1, 0⟩⟩ : StateVectors).to_elements massOne 0).eccentricity = 0 := by
    show (⟨⟨1, 0, 0⟩, ⟨0, 1, 0⟩⟩ : StateVectors).ecc massOne = 0
    rw [StateVectors.ecc, StateVectors.eVec, sgp_massOne]
    simp only [Vec3.length, Vec3.smul, Vec3.sub, Vec3.dot]
    norm_num [Real.sqrt_one, Real.sqrt_zero]
  exact ⟨hn, he,
    (to_elements_degenerate_defaults ⟨⟨1, 0, 0⟩, ⟨0, 1, 0⟩⟩ massOne 0).1 hn,
    (to_elements_degenerate_defaults ⟨⟨1, 0, 0⟩, ⟨0, 1, 0⟩⟩ massOne 0).2 he⟩

/-- C7 counterexample input: a planar state with eccentricity
`2^(-23) - 2^(-48)`, nonzero but below `Num::EPSILON`. -/
def sNear : StateVectors := ⟨⟨1, 0, 0⟩, ⟨0, 1 - 1 / 2 ^ 24, 0⟩⟩

/-- C7 counterexample: for a state whose eccentricity is near zero but not
exactly zero, the inverse conversion does NOT return `ω = 0`: here it returns
`ω = π`. -/
theorem to_elements_near_zero_ecc_cex :
    0 < (sNear.to_elements massOne 0).eccentricity ∧
    (sNear.to_elements massOne 0).eccentricity < machEps ∧
    (sNear.to_elements massOne 0).argument_of_periapsis = π ∧
    (sNear.to_elements massOne 0).argument_of_periapsis ≠ 0 := by
  have hw : ((1 : ℝ) - 1 / 2 ^ 24) ^ 2 = 1 - 1 / 2 ^ 23 + 1 / 2 ^ 48 := by norm_num
  have hvmag : (sNear.velocity).length = 1 - 1 / 2 ^ 24 := by
    simp only [sNear, Vec3.length]
    rw [show (0 : ℝ) ^ 2 + (1 - 1 / 2 ^ 24) ^ 2 + 0 ^ 2 = (1 - 1 / 2 ^ 24) ^ 2 by ring]
    rw [Real.sqrt_sq (by norm_num)]
  have hrmag : (sNear.position).length = 1 := by
    simp only [sNear, Vec3.length]
    norm_num [Real.sqrt_one]
  have hev : sNear.eVec massOne = ⟨-(1 / 2 ^ 23 - 1 / 2 ^ 48), 0, 0⟩ := by
    rw [StateVectors.eVec, sgp_massOne, hvmag, hrmag]
    simp only [sNear, Vec3.smul, Vec3.sub, Vec3.dot]
    norm_num
  have hecc : sNear.ecc massOne = 1 / 2 ^ 23 - 1 / 2 ^ 48 := by
    rw [StateVectors.ecc, hev]
    simp only [Vec3.length]
    rw [show (-(1 / 2 ^ 23 - 1 / 2 ^ 48) : ℝ) ^ 2 + 0 ^ 2 + 0 ^ 2 =
      (1 / 2 ^ 23 - 1 / 2 ^ 48) ^ 2 by ring]
    rw [Real.sqrt_sq (by norm_num)]
  have hhv : sNear.hVec = ⟨0, 0, 1 - 1 / 2 ^ 24⟩ := by
    simp only [StateVectors.hVec, sNear, Vec3.cross]
    norm_num
  have hincl : sNear.incl = 0 := by
    rw [StateVectors.incl, hhv]
    simp only [Vec3.length]
    rw [show (0 : ℝ) ^ 2 + 0 ^ 2 + (1 - 1 / 2 ^ 24) ^ 2 = (1 - 1 / 2 ^ 24) ^ 2 by ring]
    rw [Real.sqrt_sq (by norm_num)]
    rw [div_self (by norm_num)]
    exact Real.arccos_one
  have hnv : sNear.nVec = Vec3.X := by
    simp only [StateVectors.nVec, hhv, Vec3.cross, Vec3.Z]
    norm_num [Vec3.length, Real.sqrt_zero, machEps]
  have hnhat : sNear.nHat = ⟨1, 0, 0⟩ := by
    rw [StateVectors.nHat, hnv]
    simp only [Vec3.normalize, Vec3.sdiv, Vec3.length, Vec3.X]
    norm_num [Real.sqrt_one]
  have hargp : sNear.argp massOne = π := by
    rw [StateVectors.argp, hev, hecc, hnhat]
    simp only [Vec3.sdiv, Vec3.dot]
    rw [show (-(1 / 2 ^ 23 - 1 / 2 ^ 48) : ℝ) / (1 / 2 ^ 23 - 1 / 2 ^ 48) * 1 +
      0 / (1 / 2 ^ 23 - 1 / 2 ^ 48) * 0 + 0 / (1 / 2 ^ 23 - 1 / 2 ^ 48) * 0 = -1 by
        rw [neg_div, div_self (by norm_num : (1 / 2 ^ 23 - 1 / 2 ^ 48 : ℝ) ≠ 0)]; ring]
    rw [Real.arccos_neg_one, hincl]
    norm_num
  refine ⟨?_, ?_, hargp, ?_⟩
  · show 0 < sNear.ecc massOne
    rw [hecc]; norm_num
  · show sNear.ecc massOne < machEps
    rw [hecc, machEps]; norm_num
  · show sNear.argp massOne ≠ 0
    rw [hargp]; exact Real.pi_ne_zero

lemma normalize_x_lt_one {v : Vec3} (h : v.normalize.y < 0) : v.normalize.x < 1 := by
  have hy : v.y / v.length < 0 := h
  have hLpos : 0 < v.length := by
    rcases eq_or_lt_of_le (Real.sqrt_nonneg (v.x ^ 2 + v.y ^ 2 + v.z ^ 2)) with hEq | h1
    · exfalso
      rw [show v.length = Real.sqrt (v.x ^ 2 + v.y ^ 2 + v.z ^ 2) from rfl, ← hEq] at hy
      simp at hy
    · exact h1
  have hyne : v.y ≠ 0 := by
    intro h0
    rw [h0] at hy
    simp at hy
  have hlen_gt : v.x < v.length := by
    have h2 : |v.x| = Real.sqrt (v.x ^ 2) := (Real.sqrt_sq_eq_abs _).symm
    have h3 : Real.sqrt (v.x ^ 2) < Real.sqrt (v.x ^ 2 + v.y ^ 2 + v.z ^ 2) := by
      apply Real.sqrt_lt_sqrt (sq_nonneg _)
      nlinarith [sq_nonneg v.z, pow_two_pos_of_ne_zero hyne]
    calc v.x ≤ |v.x| := le_abs_self _
      _ = Real.sqrt (v.x ^ 2) := h2
      _ < v.length := h3
  show v.x / v.length < 1
  rw [div_lt_one hLpos]
  exact hlen_gt

/-- C6 (amended): for any state with a nonzero angular-momentum vector the
inverse conversion yields `i ∈ [0, π]`, `Ω ∈ [0, 2π)` and `ω ∈ [0, 2π]`;
the upper bound `2π` for `ω` is attained (see the counterexample). -/
theorem to_elements_ranges (sv : StateVectors) (mass time : ℝ)
    (hh : sv.hVec.length ≠ 0) :
    0 ≤ (sv.to_elements mass time).inclination ∧
    (sv.to_elements mass time).inclination ≤ π ∧
    0 ≤ (sv.to_elements mass time).right_ascension_of_the_ascending_node ∧
    (sv.to_elements mass time).right_ascension_of_the_ascending_node < 2 * π ∧
    0 ≤ (sv.to_elements mass time).argument_of_periapsis ∧
    (sv.to_elements mass time).argument_of_periapsis ≤ 2 * π := by
  refine ⟨Real.arccos_nonneg _, Real.arccos_le_pi _, ?_⟩
  have hΩ : 0 ≤ sv.raan ∧ sv.raan < 2 * π := by
    simp only [StateVectors.raan, TWO_PI]
    split_ifs with h1 h2
    · exact ⟨le_refl 0, Real.two_pi_pos⟩
    · constructor
      · have := Real.arccos_le_pi sv.nHat.x
        linarith [Real.pi_pos]
      · have hpos : 0 < Real.arccos sv.nHat.x :=
          Real.arccos_pos.mpr (normalize_x_lt_one h2)
        linarith
    · exact ⟨Real.arccos_nonneg _, by linarith [Real.arccos_le_pi sv.nHat.x, Real.pi_pos]⟩
  have hω : 0 ≤ sv.argp mass ∧ sv.argp mass ≤ 2 * π := by
    simp only [StateVectors.argp, TWO_PI]
    have h0 := Real.arccos_nonneg (((sv.eVec mass).sdiv (sv.ecc mass)).dot sv.nHat)
    have hπ := Real.arccos_le_pi (((sv.eVec mass).sdiv (sv.ecc mass)).dot sv.nHat)
    split_ifs <;> constructor <;> linarith [Real.pi_pos, Real.two_pi_pos]
  exact ⟨hΩ.1, hΩ.2, hω.1, hω.2⟩

/-- Witness for C6 at the state `((1,0,0), (0,1,0))` with `μ = 1`. -/
theorem to_elements_ranges_witness :
    ((⟨⟨1, 0, 0⟩, ⟨0, 1, 0⟩⟩ : StateVectors)).hVec.length ≠ 0 ∧
    (0 ≤ ((⟨⟨1, 0, 0⟩, ⟨0, 1, 0⟩⟩ : StateVectors).to_elements massOne 0).inclination ∧
      ((⟨⟨1, 0, 0⟩, ⟨0, 1, 0⟩⟩ : StateVectors).to_elements massOne 0).inclination ≤ π ∧
      0 ≤ ((⟨⟨1, 0, 0⟩, ⟨0, 1, 0⟩⟩ :
        StateVectors).to_elements massOne 0).right_ascension_of_the_ascending_node ∧
      ((⟨⟨1, 0, 0⟩, ⟨0, 1, 0⟩⟩ :
        StateVectors).to_elements massOne 0).right_ascension_of_the_ascending_node < 2 * π ∧
      0 ≤ ((⟨⟨1, 0, 0⟩, ⟨0, 1, 0⟩⟩ : StateVectors).to_elements massOne 0).argument_of_periapsis ∧
      ((⟨⟨1, 0, 0⟩, ⟨0, 1, 0⟩⟩ :
        StateVectors).to_elements massOne 0).argument_of_periapsis ≤ 2 * π) := by
  have hh : ((⟨⟨1, 0, 0⟩, ⟨0, 1, 0⟩⟩ : StateVectors)).hVec.length ≠ 0 := by
    simp only [StateVectors.hVec, Vec3.cross, Vec3.length]
    norm_num [Real.sqrt_one]
  exact ⟨hh, to_elements_ranges ⟨⟨1, 0, 0⟩, ⟨0, 1, 0⟩⟩ massOne 0 hh⟩

/-- C6 counterexample input: a state with a huge out-of-plane angular momentum
component (inclination below `Num::EPSILON` but a node vector of length 1) and
periapsis exactly along the descending node direction. -/
def sEquatorialish : StateVectors := ⟨⟨0, -1, 0⟩, ⟨2 ^ 30, 0, 1⟩⟩

lemma sEq_hVec : sEquatorialish.hVec = ⟨-1, 0, 2 ^ 30⟩ := by
  simp only [StateVectors.hVec, sEquatorialish, Vec3.cross]
  norm_num

lemma sEq_h : sEquatorialish.hVec.length = Real.sqrt (1 + 2 ^ 60) := by
  rw [sEq_hVec]
  simp only [Vec3.length]
  rw [show ((-1 : ℝ)) ^ 2 + (0 : ℝ) ^ 2 + ((2 : ℝ) ^ 30) ^ 2 = 1 + 2 ^ 60 by norm_num]

lemma sqrt_one_add_two_pow_sixty :
    Real.sqrt (1 + 2 ^ 60) = 2 ^ 30 * Real.sqrt (1 / 2 ^ 60 + 1) := by
  rw [show (1 + 2 ^ 60 : ℝ) = ((2 : ℝ) ^ 30) ^ 2 * (1 / 2 ^ 60 + 1) by norm_num]
  rw [Real.sqrt_mul (by positivity), Real.sqrt_sq (by positivity)]

lemma sEq_cos_ratio :
    (2 : ℝ) ^ 30 / Real.sqrt (1 + 2 ^ 60) = 1 / Real.sqrt (1 / 2 ^ 60 + 1) := by
  rw [sqrt_one_add_two_pow_sixty, div_mul_eq_div_div,
    div_self (by positivity : ((2 : ℝ) ^ 30) ≠ 0)]

lemma sEq_incl_lt_eps : sEquatorialish.incl < machEps := by
  have hval : sEquatorialish.incl = Real.arccos ((2 : ℝ) ^ 30 / Real.sqrt (1 + 2 ^ 60)) := by
    rw [StateVectors.incl, sEq_h, sEq_hVec]
  have hx0 : (0 : ℝ) ≤ (2 : ℝ) ^ 30 / Real.sqrt (1 + 2 ^ 60) := by positivity
  have hx1 : (2 : ℝ) ^ 30 / Real.sqrt (1 + 2 ^ 60) ≤ 1 := by
    rw [div_le_one (by positivity)]
    rw [show ((2 : ℝ) ^ 30) = Real.sqrt (((2 : ℝ) ^ 30) ^ 2) from
      (Real.sqrt_sq (by positivity)).symm]
    apply Real.sqrt_le_sqrt
    norm_num
  have hcos : Real.cos machEps < (2 : ℝ) ^ 30 / Real.sqrt (1 + 2 ^ 60) := by
    have h1 : Real.cos machEps < 1 / Real.sqrt (machEps ^ 2 + 1) := by
      apply Real.cos_lt_one_div_sqrt_sq_add_one
      · have := Real.pi_gt_three
        rw [machEps]; nlinarith
      · have := Real.pi_gt_three
        rw [machEps]; nlinarith
      · rw [machEps]; norm_num
    have h2 : 1 / Real.sqrt (machEps ^ 2 + 1) ≤ 1 / Real.sqrt (1 / 2 ^ 60 + 1) := by
      apply one_div_le_one_div_of_le (by positivity)
      apply Real.sqrt_le_sqrt
      rw [machEps]; norm_num
    rw [sEq_cos_ratio]
    linarith
  rw [hval]
  by_contra hcon
  push_neg at hcon
  have hmem1 : machEps ∈ Set.Icc (0 : ℝ) π := by
    constructor
    · rw [machEps]; norm_num
    · have := Real.pi_gt_three
      rw [machEps]; nlinarith
  have hmem2 : Real.arccos ((2 : ℝ) ^ 30 / Real.sqrt (1 + 2 ^ 60)) ∈ Set.Icc (0 : ℝ) π :=
    ⟨Real.arccos_nonneg _, Real.arccos_le_pi _⟩
  have hle := (Real.strictAntiOn_cos.le_iff_le hmem2 hmem1).mpr hcon
  rw [Real.cos_arccos (by linarith : (-1 : ℝ) ≤ _) hx1] at hle
  linarith

lemma sEq_nHat : sEquatorialish.nHat = ⟨0, -1, 0⟩ := by
  have hcr : Vec3.Z.cross sEquatorialish.hVec = ⟨0, -1, 0⟩ := by
    rw [sEq_hVec]
    simp only [Vec3.cross, Vec3.Z]
    norm_num
  have hlen : (⟨0, -1, 0⟩ : Vec3).length = 1 := by
    simp only [Vec3.length]
    rw [show (0 : ℝ) ^ 2 + (-1 : ℝ) ^ 2 + (0 : ℝ) ^ 2 = 1 by norm_num, Real.sqrt_one]
  have hnv : sEquatorialish.nVec = ⟨0, -1, 0⟩ := by
    rw [StateVectors.nVec]
    simp only [hcr, hlen]
    rw [if_neg (by rw [machEps]; norm_num : ¬ ((1 : ℝ) < machEps))]
  rw [StateVectors.nHat, hnv]
  simp only [Vec3.normalize, hlen, Vec3.sdiv]
  norm_num

lemma sEq_eVec : sEquatorialish.eVec massOne = ⟨0, -(2 ^ 60), 0⟩ := by
  have hr : sEquatorialish.position.length = 1 := by
    simp only [sEquatorialish, Vec3.length]
    rw [show (0 : ℝ) ^ 2 + (-1 : ℝ) ^ 2 + (0 : ℝ) ^ 2 = 1 by norm_num, Real.sqrt_one]
  have hv2 : sEquatorialish.velocity.length ^ 2 = 2 ^ 60 + 1 := by
    simp only [sEquatorialish, Vec3.length]
    rw [Real.sq_sqrt (by positivity)]
    norm_num
  rw [StateVectors.eVec, sgp_massOne, hr, hv2]
  simp only [sEquatorialish, Vec3.smul, Vec3.sub, Vec3.dot]
  norm_num

lemma sEq_ecc : sEquatorialish.ecc massOne = 2 ^ 60 := by
  rw [StateVectors.ecc, sEq_eVec]
  simp only [Vec3.length]
  rw [show (0 : ℝ) ^ 2 + (-(2 ^ 60) : ℝ) ^ 2 + (0 : ℝ) ^ 2 = ((2 : ℝ) ^ 60) ^ 2 by ring]
  exact Real.sqrt_sq (by positivity)

/-- C6 counterexample: the inverse conversion can return `ω = 2π` exactly,
which violates the documented range `ω ∈ [0, 2π)`. -/
theorem to_elements_argp_two_pi_cex :
    (sEquatorialish.to_elements massOne 0).argument_of_periapsis = 2 * π ∧
    ¬ (sEquatorialish.to_elements massOne 0).argument_of_periapsis < 2 * π := by
  have hienv : |sEquatorialish.incl| < machEps := by
    have h0 : (0 : ℝ) ≤ sEquatorialish.incl := Real.arccos_nonneg _
    rw [abs_of_nonneg h0]
    exact sEq_incl_lt_eps
  have hargp : sEquatorialish.argp massOne = 2 * π := by
    rw [StateVectors.argp, sEq_eVec, sEq_ecc, sEq_nHat]
    have hdot : ((⟨0, -(2 ^ 60), 0⟩ : Vec3).sdiv (2 ^ 60)).dot ⟨0, -1, 0⟩ = 1 := by
      simp only [Vec3.sdiv, Vec3.dot]
      norm_num
    rw [hdot, Real.arccos_one]
    rw [if_neg (by norm_num : ¬ ((2 : ℝ) ^ 60 = 0))]
    rw [if_pos hienv]
    rw [if_pos (by norm_num : ((⟨0, -(2 ^ 60), 0⟩ : Vec3)).y < 0)]
    rw [TWO_PI, sub_zero]
  constructor
  · exact hargp
  · show ¬ sEquatorialish.argp massOne < 2 * π
    rw [hargp]
    exact lt_irrefl _

/-- `src/state_vectors.rs` lines 249-265: Stumpff-like coefficients
`c2(ψ), c3(ψ)` with the three-branch form (trig / hyperbolic / Taylor limit). -/
def find_c2c3 (ψ tolerance : ℝ) : ℝ × ℝ :=
  if tolerance < ψ then
    ((1 - Real.cos (Real.sqrt ψ)) / ψ,
     (Real.sqrt ψ - Real.sin (Real.sqrt ψ)) / Real.sqrt (ψ ^ 3))
  else if ψ < -tolerance then
    ((1 - Real.cosh (Real.sqrt (-ψ))) / ψ,
     (Real.sinh (Real.sqrt (-ψ)) - Real.sqrt (-ψ)) / Real.sqrt ((-ψ) ^ 3))
  else (1 / 2, 1 / 6)

/-- Rust `f32::signum` over the reals: `1` for non-negative values, `-1` for
negative ones. -/
def rustSignum (x : ℝ) : ℝ := if x < 0 then -1 else 1

/-- Output of the universal-variable Newton loop: the final `x`, the values
`ψ, c2, c3, r` of the last executed iteration, and whether the loop hit the
`break` (converged) before exhausting its 500 iterations. -/
structure UVOut where
  x : ℝ
  psi : ℝ
  c2 : ℝ
  c3 : ℝ
  r : ℝ
  converged : Bool

/-- The `for` loop of `propagate_kepler` (`src/state_vectors.rs` lines
185-207), with the remaining iteration budget as fuel.  The arguments after
the fuel are the current `x` and the `ψ, c2, c3, r` of the previous iteration
(initialized to `0` before the loop, lines 179-183).  On `break` the current
`x` is kept: the source discards the converged `new_x` (lines 203-206). -/
def uvLoop (sqrtmu one_over_a dotrv r0 dt tolerance : ℝ) :
    ℕ → ℝ → ℝ → ℝ → ℝ → ℝ → UVOut
  | 0, x, ψ, c2, c3, r => ⟨x, ψ, c2, c3, r, false⟩
  | n + 1, x, _, _, _, _ =>
    let ψ := x * x * one_over_a
    let cc := find_c2c3 ψ tolerance
    let c2 := cc.1
    let c3 := cc.2
    let r := x * x * c2 + dotrv / sqrtmu * x * (1 - ψ * c3) + r0 * (1 - ψ * c2)
    let newX := x + (sqrtmu * dt - x * x * x * c3 - dotrv / sqrtmu * x * x * c2
      - r0 * x * (1 - ψ * c3)) / r
    if |newX - x| < tolerance then ⟨x, ψ, c2, c3, r, true⟩
    else uvLoop sqrtmu one_over_a dotrv r0 dt tolerance n newX ψ c2 c3 r

/-- `src/state_vectors.rs` lines 151-207: the setup (seed `x0`, lines 159-176)
and the Newton loop of `propagate_kepler`.  (For a negative `tan s` the
near-parabolic seed's `powf(1/3)` is NaN in Rust; `Real.rpow` is used here,
which only matters inside the unreached branch for the claims below.) -/
def propagateInner (sv : StateVectors) (dt mass tolerance : ℝ) : UVOut :=
  let μ := standard_gravitational_parameter mass
  let r0 := sv.position.length
  let v0 := sv.velocity.length
  let ξ := 1 / 2 * v0 * v0 - μ / r0
  let a := -μ / (2 * ξ)
  let one_over_a := 1 / a
  let x0 :=
    if 1 / 1000000 < one_over_a then Real.sqrt μ * dt * one_over_a
    else if one_over_a < -(1 / 1000000) then
      rustSignum dt * Real.sqrt (-a) *
        Real.log (-2 * μ * one_over_a * dt /
          (sv.position.dot sv.velocity +
            rustSignum dt * Real.sqrt (-μ * a) * (1 - r0 * one_over_a)))
    else
      let h := sv.position.cross sv.velocity
      let p := h.length ^ 2 / μ
      let s := 1 / 2 * Real.arctan (1 / (3 * Real.sqrt (μ / (p * p * p)) * dt))
      let w := Real.arctan (Real.tan s ^ ((1 : ℝ) / 3))
      Real.sqrt p * 2 / Real.tan (2 * w)
  uvLoop (Real.sqrt μ) one_over_a (sv.position.dot sv.velocity) r0 dt tolerance 500 x0 0 0 0 0

/-- `src/state_vectors.rs` lines 209-220: Lagrange coefficients `f, g, ḟ, ġ`
from the loop output and the new state `f·r0 + g·v0`, `ḟ·r0 + ġ·v0`. -/
def keplerFinish (sv : StateVectors) (dt μ r0 : ℝ) (o : UVOut) : StateVectors :=
  let f := 1 - o.x ^ 2 / r0 * o.c2
  let g := dt - o.x ^ 3 / Real.sqrt μ * o.c3
  let dg := 1 - o.x ^ 2 / o.r * o.c2
  let df := Real.sqrt μ / (o.r * r0) * o.x * (o.psi * o.c3 - 1)
  ⟨Vec3.add (Vec3.smul f sv.position) (Vec3.smul g sv.velocity),
   Vec3.add (Vec3.smul df sv.position) (Vec3.smul dg sv.velocity)⟩

/-- `src/state_vectors.rs` lines 145-228: the universal-variable propagator.
Over `ℝ` the final `is_nan` test (lines 222-225) is identically false, so the
function returns unconditionally; the floating-point content of that guard is
modelled separately by `checkPropagated`. -/
def propagate_kepler (sv : StateVectors) (dt mass tolerance : ℝ) : StateVectors :=
  keplerFinish sv dt (standard_gravitational_parameter mass) sv.position.length
    (propagateInner sv dt mass tolerance)

lemma uvLoop_zero (sqrtmu one_over_a dotrv r0 dt tolerance x ψ c2 c3 r : ℝ) :
    uvLoop sqrtmu one_over_a dotrv r0 dt tolerance 0 x ψ c2 c3 r =
      ⟨x, ψ, c2, c3, r, false⟩ := by
  rw [uvLoop]

lemma uvLoop_not_converged_of_nonpos (sqrtmu one_over_a dotrv r0 dt tolerance : ℝ)
    (h : tolerance ≤ 0) : ∀ (n : ℕ) (x ψ c2 c3 r : ℝ),
    (uvLoop sqrtmu one_over_a dotrv r0 dt tolerance n x ψ c2 c3 r).converged = false := by
  intro n
  induction n with
  | zero =>
    intro x ψ c2 c3 r
    rw [uvLoop_zero]
  | succ n ih =>
    intro x ψ c2 c3 r
    rw [uvLoop]
    rw [if_neg (not_lt.mpr (le_trans h (abs_nonneg _)))]
    exact ih _ _ _ _ _

/-- C2 (actual behavior): the universal-variable Newton loop stops only on
`|Δx| < tolerance`, and exhausting the 500-iteration cap is silently
tolerated: with a non-positive tolerance the loop provably never converges,
yet `propagate_kepler` still returns the state assembled from the last
iterate - there is no `ConvergenceFailure`. -/
theorem propagate_cap_exhaustion_not_fatal (sv : StateVectors) (dt mass tolerance : ℝ)
    (h : tolerance ≤ 0) :
    (propagateInner sv dt mass tolerance).converged = false ∧
    propagate_kepler sv dt mass tolerance =
      keplerFinish sv dt (standard_gravitational_parameter mass) sv.position.length
        (propagateInner sv dt mass tolerance) := by
  constructor
  · exact uvLoop_not_converged_of_nonpos _ _ _ _ _ _ h 500 _ 0 0 0 0
  · rfl

/-- Witness for C2's behavior theorem at a concrete state with `tolerance = -1`. -/
theorem propagate_cap_exhaustion_not_fatal_witness :
    ((-1 : ℝ) ≤ 0) ∧
    (propagateInner ⟨⟨1, 0, 0⟩, ⟨0, 1, 0⟩⟩ 1 1 (-1)).converged = false ∧
    propagate_kepler ⟨⟨1, 0, 0⟩, ⟨0, 1, 0⟩⟩ 1 1 (-1) =
      keplerFinish ⟨⟨1, 0, 0⟩, ⟨0, 1, 0⟩⟩ 1 (standard_gravitational_parameter 1)
        ((⟨1, 0, 0⟩ : Vec3).length) (propagateInner ⟨⟨1, 0, 0⟩, ⟨0, 1, 0⟩⟩ 1 1 (-1)) :=
  ⟨by norm_num,
   (propagate_cap_exhaustion_not_fatal ⟨⟨1, 0, 0⟩, ⟨0, 1, 0⟩⟩ 1 1 (-1) (by norm_num)).1,
   (propagate_cap_exhaustion_not_fatal ⟨⟨1, 0, 0⟩, ⟨0, 1, 0⟩⟩ 1 1 (-1) (by norm_num)).2⟩

/-- C2 counterexample: with `tolerance = 0` the loop exhausts all 500
iterations without converging (the break can never fire), yet
`propagate_kepler` returns a state built from the unconverged iterate instead
of signalling a `ConvergenceFailure`. -/
theorem propagate_unconverged_return_cex :
    (propagateInner ⟨⟨0, 0, 1⟩, ⟨1, 0, 0⟩⟩ 1 1 0).converged = false ∧
    propagate_kepler ⟨⟨0, 0, 1⟩, ⟨1, 0, 0⟩⟩ 1 1 0 =
      keplerFinish ⟨⟨0, 0, 1⟩, ⟨1, 0, 0⟩⟩ 1 (standard_gravitational_parameter 1)
        ((⟨0, 0, 1⟩ : Vec3).length) (propagateInner ⟨⟨0, 0, 1⟩, ⟨1, 0, 0⟩⟩ 1 1 0) :=
  ⟨uvLoop_not_converged_of_nonpos _ _ _ _ _ _ (le_refl 0) 500 _ 0 0 0 0, rfl⟩

/-- IEEE-style scalar for the floating-point content of the final check of
`propagate_kepler`: finite (carrying its value), infinite, or NaN. -/
inductive FNum where
  | finite (val : ℝ) : FNum
  | infinite (negative : Bool) : FNum
  | nan : FNum

/-- Rust `f32::is_nan`. -/
def FNum.isNan : FNum → Bool
  | .nan => true
  | _ => false

/-- Rust `f32::is_finite`. -/
def FNum.isFinite : FNum → Bool
  | .finite _ => true
  | _ => false

/-- A 3-vector of IEEE-style scalars. -/
structure FVec3 where
  x : FNum
  y : FNum
  z : FNum

/-- glam `Vec3::is_nan`: true when any component is NaN. -/
def FVec3.isNan (v : FVec3) : Bool := v.x.isNan || v.y.isNan || v.z.isNan

/-- glam `Vec3::is_finite`: true when every component is finite. -/
def FVec3.isFinite (v : FVec3) : Bool := v.x.isFinite && v.y.isFinite && v.z.isFinite

/-- `src/state_vectors.rs` lines 217-227: the result check at the end of
`propagate_kepler`: panic (`none`) when any component of the computed position
or velocity is NaN; otherwise the state is returned unchanged. -/
def checkPropagated (pos vel : FVec3) : Option (FVec3 × FVec3) :=
  if pos.isNan || vel.isNan then none else some (pos, vel)

/-- C3 (amended): the guard ending `propagate_kepler` panics - it does not
return an error value - and it fires exactly on NaN components: a returned
state is guaranteed NaN-free, but not finite. -/
theorem checkPropagated_nan_only (pos vel : FVec3) :
    (checkPropagated pos vel = none ↔ (pos.isNan || vel.isNan) = true) ∧
    (∀ out, checkPropagated pos vel = some out →
      out = (pos, vel) ∧ out.1.isNan = false ∧ out.2.isNan = false) := by
  cases hb : (FVec3.isNan pos || FVec3.isNan vel) with
  | true =>
    constructor
    · simp [checkPropagated, hb]
    · intro out hout
      rw [checkPropagated] at hout
      simp [hb] at hout
  | false =>
    have hp : pos.isNan = false := by
      rcases Bool.or_eq_false_iff.mp hb with ⟨h1, h2⟩
      exact h1
    have hv : vel.isNan = false := by
      rcases Bool.or_eq_false_iff.mp hb with ⟨h1, h2⟩
      exact h2
    constructor
    · simp [checkPropagated, hb]
    · intro out hout
      rw [checkPropagated] at hout
      simp only [hb] at hout
      simp at hout
      exact ⟨hout.symm, by rw [← hout]; exact hp, by rw [← hout]; exact hv⟩

/-- Witness for C3's guard theorem at a NaN-free pair: the returned state is
exactly the input. -/
theorem checkPropagated_nan_only_witness :
    checkPropagated ⟨.finite 1, .finite 2, .finite 3⟩ ⟨.finite 4, .finite 5, .finite 6⟩ =
      some (⟨.finite 1, .finite 2, .finite 3⟩, ⟨.finite 4, .finite 5, .finite 6⟩) ∧
    (⟨.finite 1, .finite 2, .finite 3⟩ : FVec3).isNan = false := by
  have h := (checkPropagated_nan_only ⟨.finite 1, .finite 2, .finite 3⟩
    ⟨.finite 4, .finite 5, .finite 6⟩).2
    (⟨.finite 1, .finite 2, .finite 3⟩, ⟨.finite 4, .finite 5, .finite 6⟩) rfl
  exact ⟨rfl, h.2.1⟩

/-- C3 counterexample: a result containing a positive infinity (non-finite but
not NaN) passes the check and is returned, so a successfully returned state is
not guaranteed finite. -/
theorem checkPropagated_inf_passes :
    checkPropagated ⟨.infinite false, .finite 0, .finite 0⟩
        ⟨.finite 0, .finite 0, .finite 0⟩ =
      some (⟨.infinite false, .finite 0, .finite 0⟩, ⟨.finite 0, .finite 0, .finite 0⟩) ∧
    (⟨.infinite false, .finite 0, .finite 0⟩ : FVec3).isFinite = false := by
  constructor <;> rfl

attribute [ext] Vec3

lemma Vec3.length_smul (c : ℝ) (v : Vec3) : (Vec3.smul c v).length = |c| * v.length := by
  simp only [Vec3.length, Vec3.smul]
  rw [show (c * v.x) ^ 2 + (c * v.y) ^ 2 + (c * v.z) ^ 2 =
    c ^ 2 * (v.x ^ 2 + v.y ^ 2 + v.z ^ 2) by ring]
  rw [Real.sqrt_mul (sq_nonneg c), Real.sqrt_sq_eq_abs]

lemma Vec3.sdiv_smul_self (c : ℝ) (v : Vec3) (hc : c ≠ 0) : (Vec3.smul c v).sdiv c = v := by
  ext <;> simp only [Vec3.smul, Vec3.sdiv] <;> field_simp

lemma Vec3.dot_smul_left (c : ℝ) (a b : Vec3) :
    (Vec3.smul c a).dot b = c * a.dot b := by
  simp only [Vec3.smul, Vec3.dot]; ring

lemma Vec3.dot_smul_right (c : ℝ) (a b : Vec3) :
    a.dot (Vec3.smul c b) = c * a.dot b := by
  simp only [Vec3.smul, Vec3.dot]; ring

lemma Vec3.cross_smul_left (c : ℝ) (a b : Vec3) :
    (Vec3.smul c a).cross b = Vec3.smul c (a.cross b) := by
  ext <;> simp only [Vec3.smul, Vec3.cross] <;> ring

lemma Vec3.cross_smul_right (c : ℝ) (a b : Vec3) :
    a.cross (Vec3.smul c b) = Vec3.smul c (a.cross b) := by
  ext <;> simp only [Vec3.smul, Vec3.cross] <;> ring

lemma Vec3.length_eq_sqrt_dot (v : Vec3) : v.length = Real.sqrt (v.dot v) := by
  simp only [Vec3.length, Vec3.dot]
  congr 1
  ring

lemma Vec3.sub_zero_vec (v : Vec3) : Vec3.sub v ⟨0, 0, 0⟩ = v := by
  ext <;> simp [Vec3.sub]

lemma Vec3.smul_zero_coeff (v : Vec3) : Vec3.smul 0 v = ⟨0, 0, 0⟩ := by
  ext <;> simp [Vec3.smul]

lemma rotZ_dot (θ : ℝ) (a b : Vec3) : (rotZ θ a).dot (rotZ θ b) = a.dot b := by
  simp only [rotZ, Vec3.dot]
  linear_combination (a.x * b.x + a.y * b.y) * Real.sin_sq_add_cos_sq θ

lemma rotX_dot (θ : ℝ) (a b : Vec3) : (rotX θ a).dot (rotX θ b) = a.dot b := by
  simp only [rotX, Vec3.dot]
  linear_combination (a.y * b.y + a.z * b.z) * Real.sin_sq_add_cos_sq θ

lemma rotZ_cross (θ : ℝ) (a b : Vec3) :
    (rotZ θ a).cross (rotZ θ b) = rotZ θ (a.cross b) := by
  ext
  · simp only [rotZ, Vec3.cross]; ring
  · simp only [rotZ, Vec3.cross]; ring
  · simp only [rotZ, Vec3.cross]
    linear_combination (a.x * b.y - a.y * b.x) * Real.sin_sq_add_cos_sq θ

lemma rotX_cross (θ : ℝ) (a b : Vec3) :
    (rotX θ a).cross (rotX θ b) = rotX θ (a.cross b) := by
  ext
  · simp only [rotX, Vec3.cross]
    linear_combination (a.y * b.z - a.z * b.y) * Real.sin_sq_add_cos_sq θ
  · simp only [rotX, Vec3.cross]; ring
  · simp only [rotX, Vec3.cross]; ring

lemma rotZ_smul (θ c : ℝ) (v : Vec3) : rotZ θ (Vec3.smul c v) = Vec3.smul c (rotZ θ v) := by
  ext <;> simp only [rotZ, Vec3.smul] <;> ring

lemma rotX_smul (θ c : ℝ) (v : Vec3) : rotX θ (Vec3.smul c v) = Vec3.smul c (rotX θ v) := by
  ext <;> simp only [rotX, Vec3.smul] <;> ring

lemma pe_dot (el : KeplerianElements) (a b : Vec3) :
    (el.perifocal_to_equatorial a).dot (el.perifocal_to_equatorial b) = a.dot b := by
  simp only [KeplerianElements.perifocal_to_equatorial]
  rw [rotZ_dot, rotX_dot, rotZ_dot]

lemma pe_cross (el : KeplerianElements) (a b : Vec3) :
    (el.perifocal_to_equatorial a).cross (el.perifocal_to_equatorial b) =
      el.perifocal_to_equatorial (a.cross b) := by
  simp only [KeplerianElements.perifocal_to_equatorial]
  rw [rotZ_cross, rotX_cross, rotZ_cross]

lemma pe_smul (el : KeplerianElements) (c : ℝ) (v : Vec3) :
    el.perifocal_to_equatorial (Vec3.smul c v) =
      Vec3.smul c (el.perifocal_to_equatorial v) := by
  simp only [KeplerianElements.perifocal_to_equatorial]
  rw [rotZ_smul, rotX_smul, rotZ_smul]

lemma pe_length (el : KeplerianElements) (v : Vec3) :
    (el.perifocal_to_equatorial v).length = v.length := by
  rw [Vec3.length_eq_sqrt_dot, Vec3.length_eq_sqrt_dot, pe_dot]

lemma pe_X (el : KeplerianElements) :
    el.perifocal_to_equatorial Vec3.X =
      ⟨Real.cos el.right_ascension_of_the_ascending_node * Real.cos el.argument_of_periapsis -
        Real.sin el.right_ascension_of_the_ascending_node * Real.cos el.inclination *
          Real.sin el.argument_of_periapsis,
       Real.sin el.right_ascension_of_the_ascending_node * Real.cos el.argument_of_periapsis +
        Real.cos el.right_ascension_of_the_ascending_node * Real.cos el.inclination *
          Real.sin el.argument_of_periapsis,
       Real.sin el.inclination * Real.sin el.argument_of_periapsis⟩ := by
  ext <;> simp only [KeplerianElements.perifocal_to_equatorial, rotZ, rotX, Vec3.X] <;> ring

lemma pe_Z (el : KeplerianElements) :
    el.perifocal_to_equatorial Vec3.Z =
      ⟨Real.sin el.right_ascension_of_the_ascending_node * Real.sin el.inclination,
       -(Real.cos el.right_ascension_of_the_ascending_node * Real.sin el.inclination),
       Real.cos el.inclination⟩ := by
  ext <;> simp only [KeplerianElements.perifocal_to_equatorial, rotZ, rotX, Vec3.Z] <;> ring

lemma wrap_eq_of_sign (s θ : ℝ) (h0 : 0 ≤ θ) (h2 : θ < 2 * π)
    (hsign : 0 ≤ Real.sin θ → 0 ≤ s) (hsign2 : Real.sin θ < 0 → s < 0) :
    (if s < 0 then TWO_PI - Real.arccos (Real.cos θ) else Real.arccos (Real.cos θ)) = θ := by
  by_cases hπ : θ ≤ π
  · rw [if_neg (not_lt.mpr (hsign (Real.sin_nonneg_of_nonneg_of_le_pi h0 hπ)))]
    exact Real.arccos_cos h0 hπ
  · push_neg at hπ
    have hs : Real.sin θ < 0 := by
      have h1 : 0 < Real.sin (θ - π) := Real.sin_pos_of_pos_of_lt_pi (by linarith) (by linarith)
      have h2' : Real.sin (θ - π) = -Real.sin θ := by
        rw [Real.sin_sub, Real.cos_pi, Real.sin_pi]
        ring
      linarith [h2' ▸ h1]
    rw [if_pos (hsign2 hs)]
    rw [show Real.cos θ = Real.cos (2 * π - θ) from (Real.cos_two_pi_sub θ).symm]
    rw [Real.arccos_cos (by linarith) (by linarith)]
    rw [TWO_PI]
    ring

lemma newton_approx_zero_of_root (f f_prime : ℝ → ℝ) (tolerance : ℝ)
    (hf : f 0 = 0) (htol : 0 < tolerance) :
    newton_approx f f_prime 0 tolerance = some 0 := by
  rw [newton_approx, show MAX_STEPS = 99999 + 1 from rfl, newtonGo_succ, hf, zero_div,
    sub_zero, sub_zero, abs_zero, if_pos htol]

lemma mean_anomaly_at_ref_epoch (el : KeplerianElements) (mass : ℝ)
    (hM0 : el.mean_anomaly_at_epoch = 0) : el.mean_anomaly mass el.epoch = 0 := by
  simp [KeplerianElements.mean_anomaly, hM0]

lemma estimate_ecc_anomaly_zero (el : KeplerianElements) (mass tolerance : ℝ)
    (hM0 : el.mean_anomaly_at_epoch = 0) (htol : 0 < tolerance) :
    el.estimate_eccentric_anomaly mass el.epoch tolerance = some 0 := by
  rw [KeplerianElements.estimate_eccentric_anomaly]
  simp only [mean_anomaly_at_ref_epoch el mass hM0]
  apply newton_approx_zero_of_root _ _ _ _ htol
  simp

lemma true_anomaly_zero (el : KeplerianElements) (mass tolerance : ℝ)
    (he : el.eccentricity < 1) (hM0 : el.mean_anomaly_at_epoch = 0) (htol : 0 < tolerance) :
    el.true_anomaly_at_epoch mass el.epoch tolerance = some 0 := by
  rw [KeplerianElements.true_anomaly_at_epoch]
  rw [if_neg (not_le.mpr he)]
  rw [estimate_ecc_anomaly_zero el mass tolerance hM0 htol]
  simp [Real.tan_zero, Real.arctan_zero]

lemma state_at_periapsis (el : KeplerianElements) (mass tolerance : ℝ)
    (he : el.eccentricity < 1) (hM0 : el.mean_anomaly_at_epoch = 0) (htol : 0 < tolerance) :
    el.state_vectors_at_epoch mass el.epoch tolerance =
      some ⟨Vec3.smul
              (el.specific_angular_momentum mass ^ 2 / standard_gravitational_parameter mass /
                (1 + el.eccentricity)) (el.perifocal_to_equatorial Vec3.X),
            Vec3.smul
              (standard_gravitational_parameter mass / el.specific_angular_momentum mass *
                (el.eccentricity + 1)) (el.perifocal_to_equatorial Vec3.Y)⟩ := by
  rw [KeplerianElements.state_vectors_at_epoch, true_anomaly_zero el mass tolerance he hM0 htol]
  rw [Option.map_some']
  congr 1
  have hpos : el.position_at_true_anomaly mass 0 =
      Vec3.smul (el.specific_angular_momentum mass ^ 2 / standard_gravitational_parameter mass /
        (1 + el.eccentricity)) (el.perifocal_to_equatorial Vec3.X) := by
    rw [KeplerianElements.position_at_true_anomaly, ← pe_smul]
    congr 1
    ext <;> simp [Vec3.smul, Vec3.X]
  have hvel : el.velocity_at_true_anomaly mass 0 =
      Vec3.smul (standard_gravitational_parameter mass / el.specific_angular_momentum mass *
        (el.eccentricity + 1)) (el.perifocal_to_equatorial Vec3.Y) := by
    rw [KeplerianElements.velocity_at_true_anomaly, ← pe_smul]
    congr 1
    ext <;> simp [Vec3.smul, Vec3.Y]
  rw [hpos, hvel]

lemma to_elements_of_periapsis_state (e a i Ω ω t0 mass : ℝ)
    (hmass : 0 < mass) (ha : 0 < a) (he0 : 0 < e) (he1 : e < 1)
    (hi0 : machEps ≤ i) (hiπ : i < π)
    (hΩ0 : 0 ≤ Ω) (hΩ2 : Ω < 2 * π) (hω0 : 0 ≤ ω) (hω2 : ω < 2 * π)
    (hnode : machEps ≤
      Real.sqrt (standard_gravitational_parameter mass * a * (1 - e ^ 2)) * Real.sin i) :
    StateVectors.to_elements
      ⟨Vec3.smul
          ((⟨e, a, i, Ω, ω, 0, t0⟩ : KeplerianElements).specific_angular_momentum mass ^ 2 /
            standard_gravitational_parameter mass / (1 + e))
          ((⟨e, a, i, Ω, ω, 0, t0⟩ : KeplerianElements).perifocal_to_equatorial Vec3.X),
       Vec3.smul
          (standard_gravitational_parameter mass /
            (⟨e, a, i, Ω, ω, 0, t0⟩ : KeplerianElements).specific_angular_momentum mass *
            (e + 1))
          ((⟨e, a, i, Ω, ω, 0, t0⟩ : KeplerianElements).perifocal_to_equatorial Vec3.Y)⟩
      mass t0 = ⟨e, a, i, Ω, ω, 0, t0⟩ := by
  set el : KeplerianElements := ⟨e, a, i, Ω, ω, 0, t0⟩ with hel
  set μ := standard_gravitational_parameter mass with hμdef
  have hG : (0 : ℝ) < G := by rw [G]; norm_num
  have hμ : 0 < μ := by rw [hμdef, standard_gravitational_parameter]; exact mul_pos hG hmass
  have h1e2 : (0 : ℝ) < 1 - e ^ 2 := by nlinarith
  have h1e : (0 : ℝ) < 1 - e := by linarith
  have h1pe : (0 : ℝ) < 1 + e := by linarith
  have hharg : 0 < μ * a * (1 - e ^ 2) := by positivity
  have hipos : 0 < i := lt_of_lt_of_le (by rw [machEps]; norm_num) hi0
  have hsin : 0 < Real.sin i := Real.sin_pos_of_pos_of_lt_pi hipos hiπ
  have hsam : el.specific_angular_momentum mass = Real.sqrt (μ * a * (1 - e ^ 2)) := by
    rw [KeplerianElements.specific_angular_momentum]
    rw [if_neg (not_le.mpr he1 : ¬ (1 : ℝ) ≤ e)]
  rw [hsam]
  set h := Real.sqrt (μ * a * (1 - e ^ 2)) with hhdef
  have hpos : 0 < h := Real.sqrt_pos.mpr hharg
  have hsq : h ^ 2 = μ * a * (1 - e ^ 2) := Real.sq_sqrt hharg.le
  set r_p := h ^ 2 / μ / (1 + e) with hrpdef
  set v_q := μ / h * (e + 1) with hvqdef
  have hrp : r_p = a * (1 - e) := by
    rw [hrpdef, hsq]
    field_simp
    ring
  have hrp_pos : 0 < r_p := by rw [hrp]; exact mul_pos ha h1e
  have hvq_pos : 0 < v_q := by
    rw [hvqdef]
    exact mul_pos (div_pos hμ hpos) (by linarith)
  set u1 := el.perifocal_to_equatorial Vec3.X with hu1def
  set u2 := el.perifocal_to_equatorial Vec3.Y with hu2def
  have hfi : el.inclination = i := rfl
  have hfΩ : el.right_ascension_of_the_ascending_node = Ω := rfl
  have hfω : el.argument_of_periapsis = ω := rfl
  have hXX : Vec3.X.dot Vec3.X = 1 := by simp [Vec3.dot, Vec3.X]
  have hXY : Vec3.X.dot Vec3.Y = 0 := by simp [Vec3.dot, Vec3.X, Vec3.Y]
  have hXlen : Vec3.X.length = 1 := by
    simp only [Vec3.length, Vec3.X]
    rw [show (1 : ℝ) ^ 2 + 0 ^ 2 + 0 ^ 2 = 1 by norm_num, Real.sqrt_one]
  have hYlen : Vec3.Y.length = 1 := by
    simp only [Vec3.length, Vec3.Y]
    rw [show (0 : ℝ) ^ 2 + 1 ^ 2 + 0 ^ 2 = 1 by norm_num, Real.sqrt_one]
  have hXcY : Vec3.X.cross Vec3.Y = Vec3.Z := by
    ext <;> simp [Vec3.cross, Vec3.X, Vec3.Y, Vec3.Z]
  have hu1u1 : u1.dot u1 = 1 := by rw [hu1def, pe_dot, hXX]
  have hu1u2 : u1.dot u2 = 0 := by rw [hu1def, hu2def, pe_dot, hXY]
  have hu1len : u1.length = 1 := by rw [hu1def, pe_length, hXlen]
  have hu2len : u2.length = 1 := by rw [hu2def, pe_length, hYlen]
  set sv : StateVectors := ⟨Vec3.smul r_p u1, Vec3.smul v_q u2⟩ with hsv
  have hrlen : sv.position.length = r_p := by
    show (Vec3.smul r_p u1).length = r_p
    rw [Vec3.length_smul, hu1len, abs_of_pos hrp_pos, mul_one]
  have hvlen : sv.velocity.length = v_q := by
    show (Vec3.smul v_q u2).length = v_q
    rw [Vec3.length_smul, hu2len, abs_of_pos hvq_pos, mul_one]
  have hrv : r_p * v_q = h := by
    rw [hrp, hvqdef]
    rw [show a * (1 - e) * (μ / h * (e + 1)) = μ * a * (1 - e ^ 2) / h by field_simp; ring]
    rw [← hsq, pow_two, mul_div_assoc, div_self hpos.ne', mul_one]
  have hhv : sv.hVec = Vec3.smul h (el.perifocal_to_equatorial Vec3.Z) := by
    show (Vec3.smul r_p u1).cross (Vec3.smul v_q u2) = _
    rw [Vec3.cross_smul_left, Vec3.cross_smul_right]
    rw [hu1def, hu2def, pe_cross, hXcY]
    rw [show Vec3.smul r_p (Vec3.smul v_q (el.perifocal_to_equatorial Vec3.Z)) =
      Vec3.smul (r_p * v_q) (el.perifocal_to_equatorial Vec3.Z) by
        ext <;> simp [Vec3.smul] <;> ring]
    rw [hrv]
  have hZlen : Vec3.Z.length = 1 := by
    simp only [Vec3.length, Vec3.Z]
    rw [show (0 : ℝ) ^ 2 + 0 ^ 2 + 1 ^ 2 = 1 by norm_num, Real.sqrt_one]
  have hhvlen : sv.hVec.length = h := by
    rw [hhv, Vec3.length_smul, pe_length, hZlen, abs_of_pos hpos, mul_one]
  have hpeZ : el.perifocal_to_equatorial Vec3.Z =
      ⟨Real.sin Ω * Real.sin i, -(Real.cos Ω * Real.sin i), Real.cos i⟩ := by
    rw [pe_Z, hfi, hfΩ]
  have hincl : sv.incl = i := by
    rw [StateVectors.incl, hhvlen, hhv, hpeZ]
    rw [show (Vec3.smul h (⟨Real.sin Ω * Real.sin i, -(Real.cos Ω * Real.sin i),
      Real.cos i⟩ : Vec3)).z = h * Real.cos i from rfl]
    rw [show h * Real.cos i / h = Real.cos i by field_simp]
    exact Real.arccos_cos hipos.le hiπ.le
  have hiabs : ¬ |sv.incl| < machEps := by
    rw [hincl, abs_of_pos hipos]
    exact not_lt.mpr hi0
  have hnv0 : Vec3.Z.cross sv.hVec =
      Vec3.smul h ⟨Real.cos Ω * Real.sin i, Real.sin Ω * Real.sin i, 0⟩ := by
    rw [hhv, Vec3.cross_smul_right, hpeZ]
    congr 1
    ext <;> simp [Vec3.cross, Vec3.Z]
  have hinlen : (⟨Real.cos Ω * Real.sin i, Real.sin Ω * Real.sin i, 0⟩ : Vec3).length =
      Real.sin i := by
    simp only [Vec3.length]
    rw [show (Real.cos Ω * Real.sin i) ^ 2 + (Real.sin Ω * Real.sin i) ^ 2 + (0 : ℝ) ^ 2 =
      Real.sin i ^ 2 by linear_combination Real.sin i ^ 2 * Real.sin_sq_add_cos_sq Ω]
    exact Real.sqrt_sq hsin.le
  have hnv0len : (Vec3.Z.cross sv.hVec).length = h * Real.sin i := by
    rw [hnv0, Vec3.length_smul, hinlen, abs_of_pos hpos]
  have hnbranch : ¬ (Vec3.Z.cross sv.hVec).length < machEps := by
    rw [hnv0len]
    exact not_lt.mpr hnode
  have hnVec : sv.nVec =
      Vec3.smul h ⟨Real.cos Ω * Real.sin i, Real.sin Ω * Real.sin i, 0⟩ := by
    show (if (Vec3.Z.cross sv.hVec).length < machEps then Vec3.X
      else Vec3.Z.cross sv.hVec) = _
    rw [if_neg hnbranch]
    exact hnv0
  have hnHat : sv.nHat = ⟨Real.cos Ω, Real.sin Ω, 0⟩ := by
    rw [StateVectors.nHat, hnVec, Vec3.normalize]
    rw [show (Vec3.smul h
        (⟨Real.cos Ω * Real.sin i, Real.sin Ω * Real.sin i, 0⟩ : Vec3)).length =
        h * Real.sin i by rw [Vec3.length_smul, hinlen, abs_of_pos hpos]]
    ext
    · show h * (Real.cos Ω * Real.sin i) / (h * Real.sin i) = Real.cos Ω
      field_simp
      ring
    · show h * (Real.sin Ω * Real.sin i) / (h * Real.sin i) = Real.sin Ω
      field_simp
      ring
    · show h * 0 / (h * Real.sin i) = 0
      simp
  have hdotrv : sv.position.dot sv.velocity = 0 := by
    show (Vec3.smul r_p u1).dot (Vec3.smul v_q u2) = 0
    rw [Vec3.dot_smul_left, Vec3.dot_smul_right, hu1u2]
    ring
  have hvq2 : v_q ^ 2 = μ * (e + 1) / (a * (1 - e)) := by
    rw [hvqdef, mul_pow, div_pow, hsq]
    rw [show (1 : ℝ) - e ^ 2 = (1 - e) * (1 + e) by ring]
    field_simp
    ring
  have hev : sv.eVec mass = Vec3.smul e u1 := by
    have expand : sv.eVec mass = Vec3.smul (1 / μ)
        (Vec3.sub (Vec3.smul (sv.velocity.length ^ 2 - μ / sv.position.length) sv.position)
          (Vec3.smul (sv.position.dot sv.velocity) sv.velocity)) := rfl
    rw [expand, hvlen, hrlen, hdotrv, Vec3.smul_zero_coeff]
    have hsub : Vec3.sub (Vec3.smul (v_q ^ 2 - μ / r_p) sv.position) ⟨0, 0, 0⟩ =
        Vec3.smul (v_q ^ 2 - μ / r_p) sv.position := Vec3.sub_zero_vec _
    rw [hsub]
    show Vec3.smul (1 / μ) (Vec3.smul (v_q ^ 2 - μ / r_p) (Vec3.smul r_p u1)) = _
    have hcoef : 1 / μ * ((v_q ^ 2 - μ / r_p) * r_p) = e := by
      rw [hvq2, hrp]
      field_simp
      ring
    rw [show Vec3.smul (1 / μ) (Vec3.smul (v_q ^ 2 - μ / r_p) (Vec3.smul r_p u1)) =
      Vec3.smul (1 / μ * ((v_q ^ 2 - μ / r_p) * r_p)) u1 by
        ext <;> simp [Vec3.smul] <;> ring]
    rw [hcoef]
  have hecc : sv.ecc mass = e := by
    rw [StateVectors.ecc, hev, Vec3.length_smul, hu1len, abs_of_pos he0, mul_one]
  have hebranch : ¬ (1 : ℝ) ≤ sv.ecc mass := by rw [hecc]; exact not_le.mpr he1
  have hu1x : u1.x = Real.cos Ω * Real.cos ω - Real.sin Ω * Real.cos i * Real.sin ω := by
    rw [hu1def, pe_X, hfi, hfΩ, hfω]
  have hu1y : u1.y = Real.sin Ω * Real.cos ω + Real.cos Ω * Real.cos i * Real.sin ω := by
    rw [hu1def, pe_X, hfi, hfΩ, hfω]
  have hu1z : u1.z = Real.sin i * Real.sin ω := by
    rw [hu1def, pe_X, hfi, hfΩ, hfω]
  have hu1n : u1.dot ⟨Real.cos Ω, Real.sin Ω, 0⟩ = Real.cos ω := by
    simp only [Vec3.dot, hu1x, hu1y, hu1z]
    linear_combination Real.cos ω * Real.sin_sq_add_cos_sq Ω
  have hraan : sv.raan = Ω := by
    rw [StateVectors.raan]
    show (if |sv.incl| < machEps then 0
      else if sv.nHat.y < 0 then TWO_PI - Real.arccos sv.nHat.x
      else Real.arccos sv.nHat.x) = Ω
    rw [if_neg hiabs, hnHat]
    exact wrap_eq_of_sign (Real.sin Ω) Ω hΩ0 hΩ2 (fun hx => hx) (fun hx => hx)
  have hargp : sv.argp mass = ω := by
    rw [StateVectors.argp]
    show (if sv.ecc mass = 0 then 0
      else if |sv.incl| < machEps then
        if (sv.eVec mass).y < 0 then
          TWO_PI - Real.arccos (((sv.eVec mass).sdiv (sv.ecc mass)).dot sv.nHat)
        else Real.arccos (((sv.eVec mass).sdiv (sv.ecc mass)).dot sv.nHat)
      else
        if (sv.eVec mass).z < 0 then
          TWO_PI - Real.arccos (((sv.eVec mass).sdiv (sv.ecc mass)).dot sv.nHat)
        else Real.arccos (((sv.eVec mass).sdiv (sv.ecc mass)).dot sv.nHat)) = ω
    rw [hecc, if_neg he0.ne', if_neg hiabs, hev, Vec3.sdiv_smul_self e u1 he0.ne', hnHat, hu1n]
    rw [show (Vec3.smul e u1).z = e * u1.z from rfl, hu1z]
    apply wrap_eq_of_sign (e * (Real.sin i * Real.sin ω)) ω hω0 hω2
    · intro hx
      have hx2 : 0 ≤ Real.sin i * Real.sin ω := mul_nonneg hsin.le hx
      exact mul_nonneg he0.le hx2
    · intro hx
      have hx2 : Real.sin i * Real.sin ω < 0 := mul_neg_of_pos_of_neg hsin hx
      exact mul_neg_of_pos_of_neg he0 hx2
  have hsma : sv.sma mass = a := by
    rw [StateVectors.sma]
    show (if 1 ≤ sv.ecc mass then sv.hVec.length ^ 2 / μ / (sv.ecc mass ^ 2 - 1)
      else sv.hVec.length ^ 2 / μ / (1 - sv.ecc mass ^ 2)) = a
    rw [if_neg hebranch, hhvlen, hecc, hsq]
    field_simp
    ring
  have htrue : sv.trueAnom mass = 0 := by
    rw [StateVectors.trueAnom]
    show (if (sv.position.sdiv sv.position.length).dot (sv.velocity.sdiv sv.velocity.length) < 0
      then TWO_PI - Real.arccos ((sv.position.sdiv sv.position.length).dot
        ((sv.eVec mass).sdiv (sv.ecc mass)))
      else Real.arccos ((sv.position.sdiv sv.position.length).dot
        ((sv.eVec mass).sdiv (sv.ecc mass)))) = 0
    rw [hrlen, hvlen, hev, hecc]
    rw [show sv.position = Vec3.smul r_p u1 from rfl,
      show sv.velocity = Vec3.smul v_q u2 from rfl]
    rw [Vec3.sdiv_smul_self r_p u1 hrp_pos.ne', Vec3.sdiv_smul_self v_q u2 hvq_pos.ne',
      Vec3.sdiv_smul_self e u1 he0.ne']
    rw [hu1u1, hu1u2, Real.arccos_one]
    rw [if_neg (lt_irrefl 0)]
  have hM : sv.meanAnom mass = 0 := by
    rw [StateVectors.meanAnom]
    rw [if_neg hebranch, htrue, hecc, calculate_elliptical_mean_anomaly]
    simp
  show StateVectors.to_elements sv mass t0 = el
  rw [StateVectors.to_elements, hecc, hsma, hincl, hraan, hargp, hM, hel]

/-- C1 (amended): exact round trip at the periapsis epoch.  For elements with
`e ∈ (0, 0.99]`, `a > 0`, inclination in `[ε, π)` with a node vector of length
at least `ε`, `Ω, ω ∈ [0, 2π)` and mean anomaly `0` at the reference epoch,
converting to state vectors at the reference epoch (any positive mass and
tolerance) and back recovers every element exactly.  Inclinations above `π`
are never recovered (see the counterexample): the inverse conversion always
returns `arccos ∈ [0, π]`. -/
theorem roundtrip_at_periapsis_epoch (e a i Ω ω t0 mass tolerance : ℝ)
    (hmass : 0 < mass) (ha : 0 < a) (he0 : 0 < e) (he99 : e ≤ 99 / 100)
    (hi0 : machEps ≤ i) (hiπ : i < π)
    (hΩ0 : 0 ≤ Ω) (hΩ2 : Ω < 2 * π) (hω0 : 0 ≤ ω) (hω2 : ω < 2 * π)
    (hnode : machEps ≤
      Real.sqrt (standard_gravitational_parameter mass * a * (1 - e ^ 2)) * Real.sin i)
    (htol : 0 < tolerance) :
    ((⟨e, a, i, Ω, ω, 0, t0⟩ : KeplerianElements).state_vectors_at_epoch mass t0
        tolerance).map (fun sv => sv.to_elements mass t0) =
      some ⟨e, a, i, Ω, ω, 0, t0⟩ := by
  have he1 : e < 1 := lt_of_le_of_lt he99 (by norm_num)
  have hsv := state_at_periapsis ⟨e, a, i, Ω, ω, 0, t0⟩ mass tolerance he1 rfl htol
  have hsv' : (⟨e, a, i, Ω, ω, 0, t0⟩ : KeplerianElements).state_vectors_at_epoch mass t0
      tolerance =
      some ⟨Vec3.smul
              ((⟨e, a, i, Ω, ω, 0, t0⟩ : KeplerianElements).specific_angular_momentum mass ^ 2 /
                standard_gravitational_parameter mass / (1 + e))
              ((⟨e, a, i, Ω, ω, 0, t0⟩ : KeplerianElements).perifocal_to_equatorial Vec3.X),
            Vec3.smul
              (standard_gravitational_parameter mass /
                (⟨e, a, i, Ω, ω, 0, t0⟩ : KeplerianElements).specific_angular_momentum mass *
                (e + 1))
              ((⟨e, a, i, Ω, ω, 0, t0⟩ :
                KeplerianElements).perifocal_to_equatorial Vec3.Y)⟩ := hsv
  rw [hsv', Option.map_some']
  exact congrArg some (to_elements_of_periapsis_state e a i Ω ω t0 mass hmass ha he0 he1
    hi0 hiπ hΩ0 hΩ2 hω0 hω2 hnode)

/-- Witness for C1's round-trip theorem at `e = 1/2`, `a = 1`, `i = π/2`,
`Ω = ω = 0`, `μ = 1`, `tolerance = 1`. -/
theorem roundtrip_at_periapsis_epoch_witness :
    0 < massOne ∧ machEps ≤ π / 2 ∧ π / 2 < π ∧
    machEps ≤ Real.sqrt (standard_gravitational_parameter massOne * 1 *
      (1 - (1 / 2 : ℝ) ^ 2)) * Real.sin (π / 2) ∧
    ((⟨1 / 2, 1, π / 2, 0, 0, 0, 0⟩ : KeplerianElements).state_vectors_at_epoch massOne 0
        1).map (fun sv => sv.to_elements massOne 0) =
      some ⟨1 / 2, 1, π / 2, 0, 0, 0, 0⟩ := by
  have hmass : (0 : ℝ) < massOne := by rw [massOne]; norm_num
  have hi0 : machEps ≤ π / 2 := by
    rw [machEps]
    nlinarith [Real.pi_gt_three]
  have hiπ : π / 2 < π := by linarith [Real.pi_pos]
  have hnode : machEps ≤ Real.sqrt (standard_gravitational_parameter massOne * 1 *
      (1 - (1 / 2 : ℝ) ^ 2)) * Real.sin (π / 2) := by
    rw [sgp_massOne, Real.sin_pi_div_two, mul_one]
    rw [show (1 : ℝ) * 1 * (1 - (1 / 2 : ℝ) ^ 2) = 3 / 4 by norm_num]
    have h12 : (1 / 2 : ℝ) ≤ Real.sqrt (3 / 4) := by
      rw [show (1 / 2 : ℝ) = Real.sqrt ((1 / 2) ^ 2) from (Real.sqrt_sq (by norm_num)).symm]
      apply Real.sqrt_le_sqrt
      norm_num
    rw [machEps]
    linarith
  exact ⟨hmass, hi0, hiπ, hnode,
    roundtrip_at_periapsis_epoch (1 / 2) 1 (π / 2) 0 0 0 massOne 1 hmass one_pos
      (by norm_num) (by norm_num) hi0 hiπ (le_refl 0) Real.two_pi_pos (le_refl 0)
      Real.two_pi_pos hnode one_pos⟩

lemma cos_three_pi_div_two : Real.cos (3 * π / 2) = 0 := by
  rw [show (3 : ℝ) * π / 2 = π + π / 2 by ring, Real.cos_add, Real.cos_pi, Real.sin_pi,
    Real.cos_pi_div_two, Real.sin_pi_div_two]
  ring

lemma sin_three_pi_div_two : Real.sin (3 * π / 2) = -1 := by
  rw [show (3 : ℝ) * π / 2 = π + π / 2 by ring, Real.sin_add, Real.cos_pi, Real.sin_pi,
    Real.cos_pi_div_two, Real.sin_pi_div_two]
  ring

/-- C1 counterexample: the claim admits inclinations in `[0, 2π)`, but for
`i = 3π/2` the round trip can never reproduce the inclination at any mass,
epoch and tolerance - the recovered inclination is an `arccos`, hence at most
`π`, at least one radian away from `3π/2`; the concrete instance recovers
`π/2`. -/
theorem roundtrip_inclination_cex :
    (∀ mass epoch tolerance incl,
      ((⟨1 / 2, 1, 3 * π / 2, 0, 0, 0, 0⟩ : KeplerianElements).state_vectors_at_epoch mass
        epoch tolerance).map (fun sv => (sv.to_elements mass epoch).inclination) =
          some incl →
      incl ≤ π ∧ 1 ≤ |3 * π / 2 - incl|) ∧
    ((⟨1 / 2, 1, 3 * π / 2, 0, 0, 0, 0⟩ : KeplerianElements).state_vectors_at_epoch massOne 0
      1).map (fun sv => (sv.to_elements massOne 0).inclination) = some (π / 2) := by
  constructor
  · intro mass epoch tolerance incl hmap
    rcases Option.map_eq_some'.mp hmap with ⟨sv, hsv, hincl⟩
    have hle : incl ≤ π := by
      rw [← hincl]
      exact Real.arccos_le_pi _
    refine ⟨hle, ?_⟩
    have habs : 3 * π / 2 - incl ≤ |3 * π / 2 - incl| := le_abs_self _
    have hπ3 : (3 : ℝ) < π := Real.pi_gt_three
    linarith
  · have hu1 : (⟨1 / 2, 1, 3 * π / 2, 0, 0, 0, 0⟩ :
        KeplerianElements).perifocal_to_equatorial Vec3.X = Vec3.X := by
      ext <;>
        simp [KeplerianElements.perifocal_to_equatorial, rotZ, rotX, Vec3.X,
          Real.cos_zero, Real.sin_zero]
    have hu2 : (⟨1 / 2, 1, 3 * π / 2, 0, 0, 0, 0⟩ :
        KeplerianElements).perifocal_to_equatorial Vec3.Y = ⟨0, 0, -1⟩ := by
      ext <;>
        simp [KeplerianElements.perifocal_to_equatorial, rotZ, rotX, Vec3.Y,
          Real.cos_zero, Real.sin_zero, cos_three_pi_div_two, sin_three_pi_div_two]
    have hsv := state_at_periapsis ⟨1 / 2, 1, 3 * π / 2, 0, 0, 0, 0⟩ massOne 1
      (by norm_num) rfl one_pos
    rw [hu1, hu2] at hsv
    have hsv' : (⟨1 / 2, 1, 3 * π / 2, 0, 0, 0, 0⟩ :
        KeplerianElements).state_vectors_at_epoch massOne 0 1 =
        some ⟨Vec3.smul
                ((⟨1 / 2, 1, 3 * π / 2, 0, 0, 0, 0⟩ :
                  KeplerianElements).specific_angular_momentum massOne ^ 2 /
                  standard_gravitational_parameter massOne / (1 + 1 / 2)) Vec3.X,
              Vec3.smul
                (standard_gravitational_parameter massOne /
                  (⟨1 / 2, 1, 3 * π / 2, 0, 0, 0, 0⟩ :
                    KeplerianElements).specific_angular_momentum massOne * (1 / 2 + 1))
                ⟨0, 0, -1⟩⟩ := hsv
    rw [hsv', Option.map_some']
    congr 1
    show StateVectors.incl _ = π / 2
    rw [StateVectors.incl]
    rw [show (StateVectors.hVec
      ⟨Vec3.smul
          ((⟨1 / 2, 1, 3 * π / 2, 0, 0, 0, 0⟩ :
            KeplerianElements).specific_angular_momentum massOne ^ 2 /
            standard_gravitational_parameter massOne / (1 + 1 / 2)) Vec3.X,
        Vec3.smul
          (standard_gravitational_parameter massOne /
            (⟨1 / 2, 1, 3 * π / 2, 0, 0, 0, 0⟩ :
              KeplerianElements).specific_angular_momentum massOne * (1 / 2 + 1))
          ⟨0, 0, -1⟩⟩).z = 0 by
        simp [StateVectors.hVec, Vec3.cross, Vec3.smul, Vec3.X]]
    rw [zero_div, Real.arccos_zero]
